import Mathlib

/-!
# Verified model of the `mysql_common` binlog event codec

Shallow embedding of `src/binlog.rs` (MySQL binary log codec, binlog
version 4).  Byte streams are `List Nat` with every element `< 256`;
fixed-width little-endian integers are read into plain `Nat`.  Rust's
saturating arithmetic (`saturating::Saturating`, used as `S(..)` in the
source) coincides with `Nat` subtraction, which is used throughout.

Fallible reads mirror `std::io`:

* payload codecs (called on an event's already-framed body through
  `Event::read_event`, so that the `input.limit(event_size - 19)` wrapper
  is exactly the body list) are modelled as `Option`-returning parsers;
  the claims about them only mention the success path;
* the framing layer (`BinlogFileHeader::read`, `Event::read`,
  `EventStreamReader::read`, `BinlogFile::next`), whose error *kinds* the
  spec talks about, is modelled with `ReadOutcome`, which also has a
  distinguished `panicked` outcome for Rust panics (`unwrap`, slice-index
  out of bounds).

A few helpers of the crate live outside `src/` (`crate::misc`,
`crate::constants`, the `ReadMysqlExt`/`WriteMysqlExt` length-encoded
integer readers and the `limit` reader/writer of `crate::io`).  Those are
modelled from the spec and marked `Modelled from the spec:` in their doc
comments; everything else is translated from `src/binlog.rs` directly.
-/

namespace MysqlBinlog

/-- A byte stream: a list of byte values (well-formed lists have all
elements `< 256`, see `WfBytes`). -/
abbrev Bytes := List Nat

/-- Wellformedness of a byte list: every element fits in a `u8`. -/
def WfBytes (b : Bytes) : Prop := ∀ x ∈ b, x < 256

/-- `std::io::ErrorKind` values that appear in `src/binlog.rs`. -/
inductive IOErrorKind where
  | unexpectedEof
  | invalidData
  | writeZero
  | other
deriving DecidableEq, Repr

/-- Outcome of a fallible framing-layer read: success, an `io::Error`
of a given kind, or a Rust panic. -/
inductive ReadOutcome (α : Type) where
  | ok : α → ReadOutcome α
  | ioError : IOErrorKind → ReadOutcome α
  | panicked : ReadOutcome α
deriving DecidableEq, Repr

/-- Whether a `ReadOutcome` is a success. -/
def ReadOutcome.isOk {α : Type} : ReadOutcome α → Bool
  | .ok _ => true
  | _ => false

/-- `Read::read_exact` into an `n`-byte buffer: returns the buffer and the
rest of the stream, or fails (with `UnexpectedEof`) if the stream is too
short. -/
def readN? (n : Nat) (input : Bytes) : Option (Bytes × Bytes) :=
  if n ≤ input.length then some (input.take n, input.drop n) else none

/-- Little-endian value of a byte list. -/
def leVal : Bytes → Nat
  | [] => 0
  | b :: rest => b + 256 * leVal rest

/-- `byteorder`'s fixed-width little-endian unsigned read (`read_u8`,
`read_u16`, `read_u24`, `read_u32`, `read_u48`, `read_u64` are the widths
1, 2, 3, 4, 6, 8). -/
def readUIntLE (w : Nat) (input : Bytes) : Option (Nat × Bytes) :=
  match readN? w input with
  | none => none
  | some (buf, rest) => some (leVal buf, rest)

/-- `byteorder`'s fixed-width little-endian unsigned write: the `w` low
bytes of `n`, least significant first. -/
def writeUIntLE (w : Nat) (n : Nat) : Bytes :=
  match w with
  | 0 => []
  | w + 1 => n % 256 :: writeUIntLE w (n / 256)

/-- Modelled from the spec: `ReadMysqlExt::read_lenenc_int` (in
`crate::io`, not under `src/`).  Spec §4.1: "length-encoded integers
(MySQL lenenc: 0x00 to 0xFA literal; 0xFC+u16; 0xFD+u24; 0xFE+u64)";
other introducer bytes are rejected. -/
def read_lenenc_int? (input : Bytes) : Option (Nat × Bytes) :=
  match input with
  | [] => none
  | x :: rest =>
    if x ≤ 0xFA then some (x, rest)
    else if x = 0xFC then readUIntLE 2 rest
    else if x = 0xFD then readUIntLE 3 rest
    else if x = 0xFE then readUIntLE 8 rest
    else none

/-- Modelled from the spec: `WriteMysqlExt::write_lenenc_int` (in
`crate::io`, not under `src/`): the shortest of the four lenenc forms of
§4.1 that holds the value. -/
def write_lenenc_int (n : Nat) : Bytes :=
  if n < 251 then [n]
  else if n < 2 ^ 16 then 0xFC :: writeUIntLE 2 n
  else if n < 2 ^ 24 then 0xFD :: writeUIntLE 3 n
  else 0xFE :: writeUIntLE 8 n

/-- Modelled from the spec: `WriteMysqlExt::write_lenenc_str` (in
`crate::io`, not under `src/`): "length-encoded byte strings (lenenc
length, then bytes)" (§4.1). -/
def write_lenenc_str (s : Bytes) : Bytes :=
  write_lenenc_int s.length ++ s

theorem length_writeUIntLE (w n : Nat) : (writeUIntLE w n).length = w := by
  induction w generalizing n with
  | zero => rfl
  | succ w ih => simp [writeUIntLE, ih]

theorem leVal_writeUIntLE {w n : Nat} (h : n < 256 ^ w) :
    leVal (writeUIntLE w n) = n := by
  induction w generalizing n with
  | zero => simp [pow_zero, Nat.lt_one_iff] at h; simp [writeUIntLE, leVal, h]
  | succ w ih =>
    have hdiv : n / 256 < 256 ^ w := by
      rw [Nat.div_lt_iff_lt_mul (by norm_num)]
      calc n < 256 ^ (w + 1) := h
        _ = 256 ^ w * 256 := by ring
    simp only [writeUIntLE, leVal, ih hdiv]
    omega

theorem writeUIntLE_leVal {buf : Bytes} (hwf : ∀ x ∈ buf, x < 256) :
    writeUIntLE buf.length (leVal buf) = buf := by
  induction buf with
  | nil => rfl
  | cons x rest ih =>
    have hx : x < 256 := hwf x (by simp)
    have hrest : ∀ y ∈ rest, y < 256 := fun y hy => hwf y (by simp [hy])
    simp only [List.length_cons, writeUIntLE, leVal]
    rw [show (x + 256 * leVal rest) % 256 = x by omega,
      show (x + 256 * leVal rest) / 256 = leVal rest by omega, ih hrest]

theorem leVal_lt {buf : Bytes} (hwf : ∀ x ∈ buf, x < 256) :
    leVal buf < 256 ^ buf.length := by
  induction buf with
  | nil => simp [leVal]
  | cons x rest ih =>
    have hx : x < 256 := hwf x (by simp)
    have hrest := ih (fun y hy => hwf y (by simp [hy]))
    simp only [leVal, List.length_cons, pow_succ]
    calc x + 256 * leVal rest < 256 + 256 * leVal rest := by omega
      _ = 256 * (leVal rest + 1) := by ring
      _ ≤ 256 * 256 ^ rest.length := by
          apply Nat.mul_le_mul_left
          omega
      _ = 256 ^ rest.length * 256 := by ring

theorem readN?_append {xs rest : Bytes} {n : Nat} (h : xs.length = n) :
    readN? n (xs ++ rest) = some (xs, rest) := by
  subst h
  simp [readN?, List.take_append, List.drop_append]

theorem readN?_eq_some {n : Nat} {input buf rest : Bytes}
    (h : readN? n input = some (buf, rest)) :
    input = buf ++ rest ∧ buf.length = n := by
  unfold readN? at h
  split at h
  · rename_i hle
    injection h with h
    injection h with h1 h2
    subst h1; subst h2
    exact ⟨(List.take_append_drop n input).symm, List.length_take_of_le hle⟩
  · exact absurd h (by simp)

theorem readUIntLE_append {xs rest : Bytes} {w : Nat} (h : xs.length = w) :
    readUIntLE w (xs ++ rest) = some (leVal xs, rest) := by
  simp [readUIntLE, readN?_append h]

theorem readUIntLE_write {w n : Nat} {rest : Bytes} (h : n < 256 ^ w) :
    readUIntLE w (writeUIntLE w n ++ rest) = some (n, rest) := by
  rw [readUIntLE_append (length_writeUIntLE w n), leVal_writeUIntLE h]

theorem readUIntLE_eq_some {w : Nat} {input rest : Bytes} {v : Nat}
    (h : readUIntLE w input = some (v, rest)) :
    ∃ buf, input = buf ++ rest ∧ buf.length = w ∧ v = leVal buf := by
  unfold readUIntLE at h
  cases hr : readN? w input with
  | none => rw [hr] at h; exact absurd h (by simp)
  | some p =>
    obtain ⟨buf, rest'⟩ := p
    rw [hr] at h
    injection h with h
    injection h with h1 h2
    obtain ⟨hin, hlen⟩ := readN?_eq_some hr
    exact ⟨buf, by rw [hin, h2], hlen, h1.symm⟩

theorem read_lenenc_int_write {n : Nat} {rest : Bytes} (h : n < 256 ^ 8) :
    read_lenenc_int? (write_lenenc_int n ++ rest) = some (n, rest) := by
  unfold write_lenenc_int
  split
  · rename_i h251
    simp only [List.cons_append, List.nil_append, read_lenenc_int?]
    rw [if_pos (by omega)]
  · split
    · rename_i h251 h16
      simp only [List.cons_append, read_lenenc_int?]
      norm_num
      exact readUIntLE_write (by norm_num; omega)
    · split
      · rename_i h251 h16 h24
        simp only [List.cons_append, read_lenenc_int?]
        norm_num
        exact readUIntLE_write (by norm_num; omega)
      · rename_i h251 h16 h24
        simp only [List.cons_append, read_lenenc_int?]
        norm_num
        exact readUIntLE_write (by norm_num at h ⊢; omega)

/-! ## Binlog event types (`EventType`, `src/binlog.rs` lines 210-271) -/

/-- `EventType` (discriminants 0x00-0x27, plus the `ENUM_END_EVENT`
sentinel). -/
inductive EventType where
  | UNKNOWN_EVENT
  | START_EVENT_V3
  | QUERY_EVENT
  | STOP_EVENT
  | ROTATE_EVENT
  | INTVAR_EVENT
  | LOAD_EVENT
  | SLAVE_EVENT
  | CREATE_FILE_EVENT
  | APPEND_BLOCK_EVENT
  | EXEC_LOAD_EVENT
  | DELETE_FILE_EVENT
  | NEW_LOAD_EVENT
  | RAND_EVENT
  | USER_VAR_EVENT
  | FORMAT_DESCRIPTION_EVENT
  | XID_EVENT
  | BEGIN_LOAD_QUERY_EVENT
  | EXECUTE_LOAD_QUERY_EVENT
  | TABLE_MAP_EVENT
  | PRE_GA_WRITE_ROWS_EVENT
  | PRE_GA_UPDATE_ROWS_EVENT
  | PRE_GA_DELETE_ROWS_EVENT
  | WRITE_ROWS_EVENT_V1
  | UPDATE_ROWS_EVENT_V1
  | DELETE_ROWS_EVENT_V1
  | INCIDENT_EVENT
  | HEARTBEAT_EVENT
  | IGNORABLE_EVENT
  | ROWS_QUERY_EVENT
  | WRITE_ROWS_EVENT
  | UPDATE_ROWS_EVENT
  | DELETE_ROWS_EVENT
  | GTID_EVENT
  | ANONYMOUS_GTID_EVENT
  | PREVIOUS_GTIDS_EVENT
  | TRANSACTION_CONTEXT_EVENT
  | VIEW_CHANGE_EVENT
  | XA_PREPARE_LOG_EVENT
  | PARTIAL_UPDATE_ROWS_EVENT
  | ENUM_END_EVENT
deriving DecidableEq, Repr

/-- The `repr(u8)` discriminant of an `EventType` (`EventType as u8`). -/
def EventType.toNat : EventType → Nat
  | .UNKNOWN_EVENT => 0x00
  | .START_EVENT_V3 => 0x01
  | .QUERY_EVENT => 0x02
  | .STOP_EVENT => 0x03
  | .ROTATE_EVENT => 0x04
  | .INTVAR_EVENT => 0x05
  | .LOAD_EVENT => 0x06
  | .SLAVE_EVENT => 0x07
  | .CREATE_FILE_EVENT => 0x08
  | .APPEND_BLOCK_EVENT => 0x09
  | .EXEC_LOAD_EVENT => 0x0a
  | .DELETE_FILE_EVENT => 0x0b
  | .NEW_LOAD_EVENT => 0x0c
  | .RAND_EVENT => 0x0d
  | .USER_VAR_EVENT => 0x0e
  | .FORMAT_DESCRIPTION_EVENT => 0x0f
  | .XID_EVENT => 0x10
  | .BEGIN_LOAD_QUERY_EVENT => 0x11
  | .EXECUTE_LOAD_QUERY_EVENT => 0x12
  | .TABLE_MAP_EVENT => 0x13
  | .PRE_GA_WRITE_ROWS_EVENT => 0x14
  | .PRE_GA_UPDATE_ROWS_EVENT => 0x15
  | .PRE_GA_DELETE_ROWS_EVENT => 0x16
  | .WRITE_ROWS_EVENT_V1 => 0x17
  | .UPDATE_ROWS_EVENT_V1 => 0x18
  | .DELETE_ROWS_EVENT_V1 => 0x19
  | .INCIDENT_EVENT => 0x1a
  | .HEARTBEAT_EVENT => 0x1b
  | .IGNORABLE_EVENT => 0x1c
  | .ROWS_QUERY_EVENT => 0x1d
  | .WRITE_ROWS_EVENT => 0x1e
  | .UPDATE_ROWS_EVENT => 0x1f
  | .DELETE_ROWS_EVENT => 0x20
  | .GTID_EVENT => 0x21
  | .ANONYMOUS_GTID_EVENT => 0x22
  | .PREVIOUS_GTIDS_EVENT => 0x23
  | .TRANSACTION_CONTEXT_EVENT => 0x24
  | .VIEW_CHANGE_EVENT => 0x25
  | .XA_PREPARE_LOG_EVENT => 0x26
  | .PARTIAL_UPDATE_ROWS_EVENT => 0x27
  | .ENUM_END_EVENT => 0x28

/-- `TryFrom<u8> for EventType` (`src/binlog.rs` lines 284-328): only the
bytes 0x00-0x23 parse; 0x24-0x27 and everything above is
`UnknownEventType` (`none` here). -/
def EventType.tryFrom : Nat → Option EventType
  | 0x00 => some .UNKNOWN_EVENT
  | 0x01 => some .START_EVENT_V3
  | 0x02 => some .QUERY_EVENT
  | 0x03 => some .STOP_EVENT
  | 0x04 => some .ROTATE_EVENT
  | 0x05 => some .INTVAR_EVENT
  | 0x06 => some .LOAD_EVENT
  | 0x07 => some .SLAVE_EVENT
  | 0x08 => some .CREATE_FILE_EVENT
  | 0x09 => some .APPEND_BLOCK_EVENT
  | 0x0a => some .EXEC_LOAD_EVENT
  | 0x0b => some .DELETE_FILE_EVENT
  | 0x0c => some .NEW_LOAD_EVENT
  | 0x0d => some .RAND_EVENT
  | 0x0e => some .USER_VAR_EVENT
  | 0x0f => some .FORMAT_DESCRIPTION_EVENT
  | 0x10 => some .XID_EVENT
  | 0x11 => some .BEGIN_LOAD_QUERY_EVENT
  | 0x12 => some .EXECUTE_LOAD_QUERY_EVENT
  | 0x13 => some .TABLE_MAP_EVENT
  | 0x14 => some .PRE_GA_WRITE_ROWS_EVENT
  | 0x15 => some .PRE_GA_UPDATE_ROWS_EVENT
  | 0x16 => some .PRE_GA_DELETE_ROWS_EVENT
  | 0x17 => some .WRITE_ROWS_EVENT_V1
  | 0x18 => some .UPDATE_ROWS_EVENT_V1
  | 0x19 => some .DELETE_ROWS_EVENT_V1
  | 0x1a => some .INCIDENT_EVENT
  | 0x1b => some .HEARTBEAT_EVENT
  | 0x1c => some .IGNORABLE_EVENT
  | 0x1d => some .ROWS_QUERY_EVENT
  | 0x1e => some .WRITE_ROWS_EVENT
  | 0x1f => some .UPDATE_ROWS_EVENT
  | 0x20 => some .DELETE_ROWS_EVENT
  | 0x21 => some .GTID_EVENT
  | 0x22 => some .ANONYMOUS_GTID_EVENT
  | 0x23 => some .PREVIOUS_GTIDS_EVENT
  | _ => none

/-! ## Event header (`BinlogEventHeader`, `src/binlog.rs` lines 884-956) -/

/-- The fixed 19-byte event header.  `event_type` and `flags` are kept as
raw values (the source wraps them in `RawField`/`RawFlags`, whose
construction never fails). -/
structure BinlogEventHeader where
  timestamp : Nat
  event_type : Nat
  server_id : Nat
  event_size : Nat
  log_pos : Nat
  flags : Nat
deriving DecidableEq, Repr

/-- `BinlogEventHeader::LEN` (19, for binlog version ≥ 4;
`BinlogEventHeader::len` ignores its version argument). -/
def BinlogEventHeader.LEN : Nat := 19

/-- `BinlogEventHeader::read`: six fixed-width little-endian reads
(u32, u8, u32, u32, u32, u16).  The only possible failure is a short
source. -/
def BinlogEventHeader.read? (input : Bytes) :
    Option (BinlogEventHeader × Bytes) :=
  match readUIntLE 4 input with
  | none => none
  | some (timestamp, input) =>
    match readUIntLE 1 input with
    | none => none
    | some (event_type, input) =>
      match readUIntLE 4 input with
      | none => none
      | some (server_id, input) =>
        match readUIntLE 4 input with
        | none => none
        | some (event_size, input) =>
          match readUIntLE 4 input with
          | none => none
          | some (log_pos, input) =>
            match readUIntLE 2 input with
            | none => none
            | some (flags, input) =>
              some (⟨timestamp, event_type, server_id, event_size, log_pos,
                flags⟩, input)

/-- `BinlogEventHeader::write`: the six fields back, in order. -/
def BinlogEventHeader.write (h : BinlogEventHeader) : Bytes :=
  writeUIntLE 4 h.timestamp ++ writeUIntLE 1 h.event_type ++
    writeUIntLE 4 h.server_id ++ writeUIntLE 4 h.event_size ++
    writeUIntLE 4 h.log_pos ++ writeUIntLE 2 h.flags

/-! ## Event footer (`BinlogEventFooter`, `src/binlog.rs` lines 958-1015) -/

/-- `BinlogEventFooter`: the (raw) checksum algorithm byte, if one was
determined. -/
structure BinlogEventFooter where
  checksum_alg : Option Nat
deriving DecidableEq, Repr

/-- `BinlogEventFooter::BINLOG_CHECKSUM_ALG_DESC_LEN`. -/
def BinlogEventFooter.BINLOG_CHECKSUM_ALG_DESC_LEN : Nat := 1

/-- `BinlogEventFooter::BINLOG_CHECKSUM_LEN`. -/
def BinlogEventFooter.BINLOG_CHECKSUM_LEN : Nat := 4

/-- `BinlogEventFooter::CHECKSUM_VERSION_PRODUCT` = (5, 6, 1). -/
def BinlogEventFooter.CHECKSUM_VERSION_PRODUCT : Nat × Nat × Nat := (5, 6, 1)

/-- `Default for BinlogEventFooter`: algorithm byte 0
(`BINLOG_CHECKSUM_ALG_OFF`). -/
def BinlogEventFooter.default : BinlogEventFooter := ⟨some 0⟩

/-- Rust's lexicographic `Ord` on `(u8, u8, u8)` tuples, used for
`version < Self::CHECKSUM_VERSION_PRODUCT`. -/
def versionLt (a b : Nat × Nat × Nat) : Prop :=
  a.1 < b.1 ∨ (a.1 = b.1 ∧ (a.2.1 < b.2.1 ∨ (a.2.1 = b.2.1 ∧ a.2.2 < b.2.2)))

instance (a b : Nat × Nat × Nat) : Decidable (versionLt a b) := by
  unfold versionLt; infer_instance

/-- Leading decimal-digit run of a byte list, as a number (empty run
parses as 0). -/
def digitsVal (s : Bytes) : Nat :=
  (s.takeWhile fun c => 48 ≤ c ∧ c ≤ 57).foldl (fun acc c => acc * 10 + (c - 48)) 0

/-- Modelled from the spec: `crate::misc::split_version` (not under
`src/`).  Spec §4.5: take the NUL-terminated server-version string,
split it on '.', and turn the first three components into a
`(major, minor, patch)` triple; a missing or non-numeric component
counts as 0.  Per spec §8 (checksum policy for `"5.6.1-log"`) a
component is its leading digit run, so trailing garbage such as
`"-log"` is ignored. -/
def split_version (server_version : Bytes) : Nat × Nat × Nat :=
  let s := server_version.takeWhile (· ≠ 0)
  let parts := s.splitOn 46
  (digitsVal ((parts[0]?).getD []),
    digitsVal ((parts[1]?).getD []),
    digitsVal ((parts[2]?).getD []))

/-- `FormatDescriptionEvent::SERVER_VER_LEN` (50). -/
def SERVER_VER_LEN : Nat := 50

/-- `FormatDescriptionEvent::SERVER_VER_OFFSET` (2). -/
def SERVER_VER_OFFSET : Nat := 2

/-- `BinlogEventFooter::read` over an FDE body: if the body holds the
full 50-byte server-version field (offset 2), force its last byte to NUL,
parse the version triple, and pick the raw algorithm byte at
`body_len - (1 + 4)` whenever the version is at least (5, 6, 1); in every
other case there is no checksum algorithm.  (The Rust function returns
`io::Result`, but the inner `read_exact` is guarded by the length test
and can never fail, so the function is total.) -/
def BinlogEventFooter.read (buf : Bytes) : BinlogEventFooter :=
  if SERVER_VER_OFFSET + SERVER_VER_LEN ≤ buf.length then
    let server_version := (((buf.drop SERVER_VER_OFFSET).take SERVER_VER_LEN).set
      (SERVER_VER_LEN - 1) 0)
    if versionLt (split_version server_version)
        BinlogEventFooter.CHECKSUM_VERSION_PRODUCT then
      ⟨none⟩
    else
      ⟨some (buf.getD (buf.length -
        (BinlogEventFooter.BINLOG_CHECKSUM_ALG_DESC_LEN +
          BinlogEventFooter.BINLOG_CHECKSUM_LEN)) 0)⟩
  else
    ⟨none⟩

/-! ## Format description event (`src/binlog.rs` lines 1047-1258) -/

/-- `FormatDescriptionEvent`.  `binlog_version` and `server_version` are
kept raw (`RawField` / `RawText` wrappers in the source). -/
structure FormatDescriptionEvent where
  binlog_version : Nat
  server_version : Bytes
  create_timestamp : Nat
  event_type_header_lengths : Bytes
  footer : BinlogEventFooter
deriving DecidableEq, Repr

/-- `FormatDescriptionEvent::new`: fresh FDE for a binlog version, with a
zeroed server version, an empty post-header-length table and the default
footer. -/
def FormatDescriptionEvent.new (version : Nat) : FormatDescriptionEvent :=
  { binlog_version := version
    server_version := List.replicate SERVER_VER_LEN 0
    create_timestamp := 0
    event_type_header_lengths := []
    footer := BinlogEventFooter.default }

/-- `FormatDescriptionEvent::read` as invoked through
`Event::read_event` (so the length-limited input is exactly the body
list): u16 version, 50-byte server version, u32 timestamp, one skipped
header-length byte, and the remaining bytes as the post-header-length
table.  The footer field is defaulted; the caller reassigns it. -/
def FormatDescriptionEvent.read? (data : Bytes) :
    Option FormatDescriptionEvent :=
  match readUIntLE 2 data with
  | none => none
  | some (binlog_version, data) =>
    match readN? SERVER_VER_LEN data with
    | none => none
    | some (server_version, data) =>
      match readUIntLE 4 data with
      | none => none
      | some (create_timestamp, data) =>
        match readUIntLE 1 data with
        | none => none
        | some (_, data) =>
          some { binlog_version, server_version, create_timestamp
                 event_type_header_lengths := data
                 footer := BinlogEventFooter.default }

/-- `FormatDescriptionEvent::QUERY_HEADER_MINIMAL_LEN` = 4+4+1+2. -/
def QUERY_HEADER_MINIMAL_LEN : Nat := 4 + 4 + 1 + 2

/-- `FormatDescriptionEvent::QUERY_HEADER_LEN`. -/
def QUERY_HEADER_LEN : Nat := QUERY_HEADER_MINIMAL_LEN + 2

/-- `FormatDescriptionEvent::STOP_HEADER_LEN`. -/
def STOP_HEADER_LEN : Nat := 0

/-- `FormatDescriptionEvent::START_V3_HEADER_LEN` = 2 + 50 + 4. -/
def START_V3_HEADER_LEN : Nat := 2 + SERVER_VER_LEN + 4

/-- `FormatDescriptionEvent::ROTATE_HEADER_LEN`. -/
def ROTATE_HEADER_LEN : Nat := 8

/-- `FormatDescriptionEvent::INTVAR_HEADER_LEN`. -/
def INTVAR_HEADER_LEN : Nat := 0

/-- `FormatDescriptionEvent::APPEND_BLOCK_HEADER_LEN`. -/
def APPEND_BLOCK_HEADER_LEN : Nat := 4

/-- `FormatDescriptionEvent::DELETE_FILE_HEADER_LEN`. -/
def DELETE_FILE_HEADER_LEN : Nat := 4

/-- `FormatDescriptionEvent::RAND_HEADER_LEN`. -/
def RAND_HEADER_LEN : Nat := 0

/-- `FormatDescriptionEvent::USER_VAR_HEADER_LEN`. -/
def USER_VAR_HEADER_LEN : Nat := 0

/-- `FormatDescriptionEvent::FORMAT_DESCRIPTION_HEADER_LEN`
= START_V3_HEADER_LEN + ENUM_END_EVENT as usize. -/
def FORMAT_DESCRIPTION_HEADER_LEN : Nat :=
  START_V3_HEADER_LEN + EventType.ENUM_END_EVENT.toNat

/-- `FormatDescriptionEvent::XID_HEADER_LEN`. -/
def XID_HEADER_LEN : Nat := 0

/-- `FormatDescriptionEvent::BEGIN_LOAD_QUERY_HEADER_LEN`. -/
def BEGIN_LOAD_QUERY_HEADER_LEN : Nat := APPEND_BLOCK_HEADER_LEN

/-- `FormatDescriptionEvent::ROWS_HEADER_LEN_V1`. -/
def ROWS_HEADER_LEN_V1 : Nat := 8

/-- `FormatDescriptionEvent::TABLE_MAP_HEADER_LEN`. -/
def TABLE_MAP_HEADER_LEN : Nat := 8

/-- `FormatDescriptionEvent::EXECUTE_LOAD_QUERY_EXTRA_HEADER_LEN`. -/
def EXECUTE_LOAD_QUERY_EXTRA_HEADER_LEN : Nat := 4 + 4 + 4 + 1

/-- `FormatDescriptionEvent::EXECUTE_LOAD_QUERY_HEADER_LEN`. -/
def EXECUTE_LOAD_QUERY_HEADER_LEN : Nat :=
  QUERY_HEADER_LEN + EXECUTE_LOAD_QUERY_EXTRA_HEADER_LEN

/-- `FormatDescriptionEvent::INCIDENT_HEADER_LEN`. -/
def INCIDENT_HEADER_LEN : Nat := 2

/-- `FormatDescriptionEvent::HEARTBEAT_HEADER_LEN`. -/
def HEARTBEAT_HEADER_LEN : Nat := 0

/-- `FormatDescriptionEvent::IGNORABLE_HEADER_LEN`. -/
def IGNORABLE_HEADER_LEN : Nat := 0

/-- `FormatDescriptionEvent::ROWS_HEADER_LEN_V2`. -/
def ROWS_HEADER_LEN_V2 : Nat := 10

/-- `FormatDescriptionEvent::GTID_HEADER_LEN`. -/
def GTID_HEADER_LEN : Nat := 42

/-- `FormatDescriptionEvent::TRANSACTION_CONTEXT_HEADER_LEN`. -/
def TRANSACTION_CONTEXT_HEADER_LEN : Nat := 18

/-- `FormatDescriptionEvent::VIEW_CHANGE_HEADER_LEN`. -/
def VIEW_CHANGE_HEADER_LEN : Nat := 52

/-- `FormatDescriptionEvent::XA_PREPARE_HEADER_LEN`. -/
def XA_PREPARE_HEADER_LEN : Nat := 0

/-- The per-type fallback of `get_event_type_header_length` (the
`unwrap_or_else` closure, `src/binlog.rs` lines 1158-1200).  All values
fit in a `u8`, so the closing `as u8` cast is the identity. -/
def defaultHeaderLength : EventType → Nat
  | .UNKNOWN_EVENT => 0
  | .START_EVENT_V3 => START_V3_HEADER_LEN
  | .QUERY_EVENT => QUERY_HEADER_LEN
  | .STOP_EVENT => STOP_HEADER_LEN
  | .ROTATE_EVENT => ROTATE_HEADER_LEN
  | .INTVAR_EVENT => INTVAR_HEADER_LEN
  | .LOAD_EVENT => 0
  | .SLAVE_EVENT => 0
  | .CREATE_FILE_EVENT => 0
  | .APPEND_BLOCK_EVENT => APPEND_BLOCK_HEADER_LEN
  | .EXEC_LOAD_EVENT => 0
  | .DELETE_FILE_EVENT => DELETE_FILE_HEADER_LEN
  | .NEW_LOAD_EVENT => 0
  | .RAND_EVENT => RAND_HEADER_LEN
  | .USER_VAR_EVENT => USER_VAR_HEADER_LEN
  | .FORMAT_DESCRIPTION_EVENT => FORMAT_DESCRIPTION_HEADER_LEN
  | .XID_EVENT => XID_HEADER_LEN
  | .BEGIN_LOAD_QUERY_EVENT => BEGIN_LOAD_QUERY_HEADER_LEN
  | .EXECUTE_LOAD_QUERY_EVENT => EXECUTE_LOAD_QUERY_HEADER_LEN
  | .TABLE_MAP_EVENT => TABLE_MAP_HEADER_LEN
  | .PRE_GA_WRITE_ROWS_EVENT => 0
  | .PRE_GA_UPDATE_ROWS_EVENT => 0
  | .PRE_GA_DELETE_ROWS_EVENT => 0
  | .WRITE_ROWS_EVENT_V1 => ROWS_HEADER_LEN_V1
  | .UPDATE_ROWS_EVENT_V1 => ROWS_HEADER_LEN_V1
  | .DELETE_ROWS_EVENT_V1 => ROWS_HEADER_LEN_V1
  | .INCIDENT_EVENT => INCIDENT_HEADER_LEN
  | .HEARTBEAT_EVENT => 0
  | .IGNORABLE_EVENT => IGNORABLE_HEADER_LEN
  | .ROWS_QUERY_EVENT => IGNORABLE_HEADER_LEN
  | .WRITE_ROWS_EVENT => ROWS_HEADER_LEN_V2
  | .UPDATE_ROWS_EVENT => ROWS_HEADER_LEN_V2
  | .DELETE_ROWS_EVENT => ROWS_HEADER_LEN_V2
  | .GTID_EVENT => GTID_HEADER_LEN
  | .ANONYMOUS_GTID_EVENT => GTID_HEADER_LEN
  | .PREVIOUS_GTIDS_EVENT => IGNORABLE_HEADER_LEN
  | .TRANSACTION_CONTEXT_EVENT => TRANSACTION_CONTEXT_HEADER_LEN
  | .VIEW_CHANGE_EVENT => VIEW_CHANGE_HEADER_LEN
  | .XA_PREPARE_LOG_EVENT => XA_PREPARE_HEADER_LEN
  | .PARTIAL_UPDATE_ROWS_EVENT => ROWS_HEADER_LEN_V2
  | .ENUM_END_EVENT => 0

/-- `FormatDescriptionEvent::get_event_type_header_length`
(`src/binlog.rs` lines 1150-1201): 0 for `UNKNOWN_EVENT`; otherwise the
table entry at index `event_type as u8 saturating- 1`, falling back to
`defaultHeaderLength`. -/
def FormatDescriptionEvent.get_event_type_header_length
    (fde : FormatDescriptionEvent) (event_type : EventType) : Nat :=
  if event_type = .UNKNOWN_EVENT then 0
  else
    match fde.event_type_header_lengths[event_type.toNat - 1]? with
    | some len => len
    | none => defaultHeaderLength event_type

/-! ## Binlog file header (`BinlogFileHeader`, `src/binlog.rs` lines 408-449) -/

/-- `BinlogFileHeader::VALUE` = `[0xfe, b'b', b'i', b'n']`. -/
def BinlogFileHeader.VALUE : Bytes := [0xfe, 0x62, 0x69, 0x6e]

/-- `BinlogFileHeader::LEN` (4). -/
def BinlogFileHeader.LEN : Nat := 4

/-- `BinlogFileHeader::read`: read 4 bytes; `InvalidData` unless they are
exactly `VALUE`. -/
def BinlogFileHeader.read (input : Bytes) : ReadOutcome (Unit × Bytes) :=
  match readN? BinlogFileHeader.LEN input with
  | none => .ioError .unexpectedEof
  | some (buf, rest) =>
    if buf = BinlogFileHeader.VALUE then .ok ((), rest)
    else .ioError .invalidData

/-! ## Raw event and the framer (`Event`, `src/binlog.rs` lines 665-882) -/

/-- A framed event: header, body with any checksum trailer removed, the
footer in effect, and the checksum bytes (`[0,0,0,0]` when no checksum
applies).  The `fde` clone the source stores inside `Event` (used only by
`read_event`, which here receives the FDE explicitly) is omitted. -/
structure Event where
  header : BinlogEventHeader
  data : Bytes
  footer : BinlogEventFooter
  checksum : Bytes
deriving DecidableEq, Repr

/-- `Event::read` (`src/binlog.rs` lines 788-838).

* the 19-byte header is read with `?`, so a short source here is an
  `UnexpectedEof` error;
* the body length is `S(event_size) - S(19)` — saturating, hence plain
  `Nat` subtraction — and the body is read with
  `input.read_exact(&mut data).unwrap()`: a short source here is a
  *panic*, not an error;
* for an FDE the footer is parsed from the body (and one trailer byte is
  scheduled for truncation if an algorithm byte was found), otherwise the
  footer is inherited from the active FDE;
* a checksum applies iff the footer has an algorithm byte and (the event
  is an FDE or the byte is non-zero); its 4 bytes are copied from
  `data[data.len() - 4..]`, which panics when the body is shorter than 4
  bytes. -/
def Event.read (fde : FormatDescriptionEvent) (input : Bytes) :
    ReadOutcome (Event × Bytes) :=
  match BinlogEventHeader.read? input with
  | none => .ioError .unexpectedEof
  | some (header, input) =>
    match readN? (header.event_size - BinlogEventHeader.LEN) input with
    | none => .panicked
    | some (data, input) =>
      let is_fde := header.event_type = EventType.FORMAT_DESCRIPTION_EVENT.toNat
      let footer := if is_fde then BinlogEventFooter.read data else fde.footer
      let alg_desc_trunc :=
        if is_fde ∧ footer.checksum_alg ≠ none then
          BinlogEventFooter.BINLOG_CHECKSUM_ALG_DESC_LEN
        else 0
      let contains_checksum := footer.checksum_alg ≠ none ∧
        (is_fde ∨ footer.checksum_alg ≠ some 0)
      if contains_checksum then
        if data.length < BinlogEventFooter.BINLOG_CHECKSUM_LEN then
          .panicked
        else
          .ok ({ header
                 data := data.take (data.length -
                   (alg_desc_trunc + BinlogEventFooter.BINLOG_CHECKSUM_LEN))
                 footer
                 checksum := data.drop (data.length -
                   BinlogEventFooter.BINLOG_CHECKSUM_LEN) }, input)
      else
        .ok ({ header
               data := data.take (data.length - alg_desc_trunc)
               footer
               checksum := List.replicate BinlogEventFooter.BINLOG_CHECKSUM_LEN 0 },
          input)

/-- `EventStreamReader::read` (`src/binlog.rs` lines 469-484): read one
event with the active FDE; when the event parses as a
`FORMAT_DESCRIPTION_EVENT`, re-read the FDE from the (truncated) body,
reassign its footer from the event, and install it as the new active FDE.
Returns the new reader state together with the event. -/
def EventStreamReader.read (fde : FormatDescriptionEvent) (input : Bytes) :
    ReadOutcome (FormatDescriptionEvent × Event × Bytes) :=
  match Event.read fde input with
  | .ioError k => .ioError k
  | .panicked => .panicked
  | .ok (event, rest) =>
    if EventType.tryFrom event.header.event_type =
        some .FORMAT_DESCRIPTION_EVENT then
      match FormatDescriptionEvent.read? event.data with
      | none => .ioError .unexpectedEof
      | some fde2 => .ok ({ fde2 with footer := event.footer }, event, rest)
    else
      .ok (fde, event, rest)

/-- `<BinlogFile as Iterator>::next` (`src/binlog.rs` lines 507-517): an
`UnexpectedEof` from the stream reader ends iteration (`None`); every
other outcome — success, other error kinds, or a panic unwinding through
`next` — is passed on. -/
def BinlogFile.next (fde : FormatDescriptionEvent) (input : Bytes) :
    Option (ReadOutcome (FormatDescriptionEvent × Event × Bytes)) :=
  match EventStreamReader.read fde input with
  | .ioError .unexpectedEof => none
  | r => some r

/-! ## Column types and the table map event (`src/binlog.rs` lines 2482-2669) -/

/-- Modelled from the spec: `crate::constants::ColumnType` (not under
`src/`).  The spec's metadata table (§4.8) names STRING, VAR_STRING,
VARCHAR, DECIMAL, NEWDECIMAL, SET, ENUM, BLOB, DOUBLE and FLOAT; the
variants and their `u8` discriminants are the MySQL protocol column-type
codes. -/
inductive ColumnType where
  | MYSQL_TYPE_DECIMAL
  | MYSQL_TYPE_TINY
  | MYSQL_TYPE_SHORT
  | MYSQL_TYPE_LONG
  | MYSQL_TYPE_FLOAT
  | MYSQL_TYPE_DOUBLE
  | MYSQL_TYPE_NULL
  | MYSQL_TYPE_TIMESTAMP
  | MYSQL_TYPE_LONGLONG
  | MYSQL_TYPE_INT24
  | MYSQL_TYPE_DATE
  | MYSQL_TYPE_TIME
  | MYSQL_TYPE_DATETIME
  | MYSQL_TYPE_YEAR
  | MYSQL_TYPE_NEWDATE
  | MYSQL_TYPE_VARCHAR
  | MYSQL_TYPE_BIT
  | MYSQL_TYPE_TIMESTAMP2
  | MYSQL_TYPE_DATETIME2
  | MYSQL_TYPE_TIME2
  | MYSQL_TYPE_JSON
  | MYSQL_TYPE_NEWDECIMAL
  | MYSQL_TYPE_ENUM
  | MYSQL_TYPE_SET
  | MYSQL_TYPE_TINY_BLOB
  | MYSQL_TYPE_MEDIUM_BLOB
  | MYSQL_TYPE_LONG_BLOB
  | MYSQL_TYPE_BLOB
  | MYSQL_TYPE_VAR_STRING
  | MYSQL_TYPE_STRING
  | MYSQL_TYPE_GEOMETRY
deriving DecidableEq, Repr

/-- Modelled from the spec: `TryFrom<u8> for ColumnType` (in
`crate::constants`, not under `src/`), using the MySQL protocol
column-type codes. -/
def ColumnType.tryFrom : Nat → Option ColumnType
  | 0 => some .MYSQL_TYPE_DECIMAL
  | 1 => some .MYSQL_TYPE_TINY
  | 2 => some .MYSQL_TYPE_SHORT
  | 3 => some .MYSQL_TYPE_LONG
  | 4 => some .MYSQL_TYPE_FLOAT
  | 5 => some .MYSQL_TYPE_DOUBLE
  | 6 => some .MYSQL_TYPE_NULL
  | 7 => some .MYSQL_TYPE_TIMESTAMP
  | 8 => some .MYSQL_TYPE_LONGLONG
  | 9 => some .MYSQL_TYPE_INT24
  | 10 => some .MYSQL_TYPE_DATE
  | 11 => some .MYSQL_TYPE_TIME
  | 12 => some .MYSQL_TYPE_DATETIME
  | 13 => some .MYSQL_TYPE_YEAR
  | 14 => some .MYSQL_TYPE_NEWDATE
  | 15 => some .MYSQL_TYPE_VARCHAR
  | 16 => some .MYSQL_TYPE_BIT
  | 17 => some .MYSQL_TYPE_TIMESTAMP2
  | 18 => some .MYSQL_TYPE_DATETIME2
  | 19 => some .MYSQL_TYPE_TIME2
  | 245 => some .MYSQL_TYPE_JSON
  | 246 => some .MYSQL_TYPE_NEWDECIMAL
  | 247 => some .MYSQL_TYPE_ENUM
  | 248 => some .MYSQL_TYPE_SET
  | 249 => some .MYSQL_TYPE_TINY_BLOB
  | 250 => some .MYSQL_TYPE_MEDIUM_BLOB
  | 251 => some .MYSQL_TYPE_LONG_BLOB
  | 252 => some .MYSQL_TYPE_BLOB
  | 253 => some .MYSQL_TYPE_VAR_STRING
  | 254 => some .MYSQL_TYPE_STRING
  | 255 => some .MYSQL_TYPE_GEOMETRY
  | _ => none

/-- `ColumnType::get_metadata_len` (`src/binlog.rs` lines 2484-2497). -/
def ColumnType.get_metadata_len : ColumnType → Nat
  | .MYSQL_TYPE_STRING => 2
  | .MYSQL_TYPE_VAR_STRING => 2
  | .MYSQL_TYPE_VARCHAR => 2
  | .MYSQL_TYPE_BLOB => 1
  | .MYSQL_TYPE_DECIMAL => 2
  | .MYSQL_TYPE_NEWDECIMAL => 2
  | .MYSQL_TYPE_DOUBLE => 1
  | .MYSQL_TYPE_FLOAT => 1
  | .MYSQL_TYPE_SET => 2
  | .MYSQL_TYPE_ENUM => 2
  | _ => 0

/-- `TableMapEvent`.  `columns_type` is the raw byte sequence (a
`RawSeq<u8, _, ColumnType>` in the source, parsed per index on demand);
`null_bitmask` is kept as its raw underlying bytes (the body slice of
`int((column_count + 7) / 8)` bytes the decoder reads). -/
structure TableMapEvent where
  table_id : Nat
  flags : Nat
  database_name : Bytes
  table_name : Bytes
  columns_type : Bytes
  columns_metadata : Bytes
  null_bitmask : Bytes
  optional_metadata : Bytes
deriving DecidableEq, Repr

/-- `TableMapEvent::get_columns_count`. -/
def TableMapEvent.get_columns_count (ev : TableMapEvent) : Nat :=
  ev.columns_type.length

/-- `slice.get(a..a + len)`: `Some` of the sub-slice iff the whole range
is in bounds. -/
def sliceGet (s : Bytes) (a len : Nat) : Option Bytes :=
  if a + len ≤ s.length then some ((s.drop a).take len) else none

/-- The offset-accumulation loop of `get_column_metadata`
(`src/binlog.rs` lines 2553-2558), run for `k` iterations.  Each
iteration of the source loop reads `self.columns_type.get(col_idx)` —
the *queried* index, not the loop index. -/
def metadataOffsetLoop (ev : TableMapEvent) (col_idx : Nat) : Nat → Option Nat
  | 0 => some 0
  | k + 1 =>
    match metadataOffsetLoop ev col_idx k with
    | none => none
    | some offset =>
      match (ev.columns_type[col_idx]?).bind ColumnType.tryFrom with
      | none => none
      | some ty => some (offset + ty.get_metadata_len)

/-- `TableMapEvent::get_column_metadata` (`src/binlog.rs` lines
2549-2561): resolve the column's type, accumulate an offset over
`0..col_idx` loop iterations, and slice
`columns_metadata[offset..offset + metadata_len]`. -/
def TableMapEvent.get_column_metadata (ev : TableMapEvent) (col_idx : Nat) :
    Option Bytes :=
  match (ev.columns_type[col_idx]?).bind ColumnType.tryFrom with
  | none => none
  | some col_type =>
    match metadataOffsetLoop ev col_idx col_idx with
    | none => none
    | some offset => sliceGet ev.columns_metadata offset col_type.get_metadata_len

/-- `TableMapEvent::read` as invoked through `Event::read_event` (the
length-limited input is exactly the body list, `src/binlog.rs` lines
2567-2624).  The `table_id` is a u32 when the FDE declares a 6-byte
post-header for `TABLE_MAP_EVENT` and a u48 otherwise; both
NUL-terminator bytes after the names are read and discarded; the
bit vector read for `null_bitmask` spans `(columns_count + 7) / 8` bytes
and the remaining bytes become `optional_metadata` (consuming the whole
body). -/
def TableMapEvent.read? (fde : FormatDescriptionEvent) (data : Bytes) :
    Option TableMapEvent :=
  (if fde.get_event_type_header_length .TABLE_MAP_EVENT = 6 then
      readUIntLE 4 data
    else
      readUIntLE 6 data).bind fun (table_id, data) =>
  (readUIntLE 2 data).bind fun (flags, data) =>
  (readUIntLE 1 data).bind fun (database_name_len, data) =>
  (readN? database_name_len data).bind fun (database_name, data) =>
  (readUIntLE 1 data).bind fun (_, data) =>
  (readUIntLE 1 data).bind fun (table_name_len, data) =>
  (readN? table_name_len data).bind fun (table_name, data) =>
  (readUIntLE 1 data).bind fun (_, data) =>
  (read_lenenc_int? data).bind fun (columns_count, data) =>
  (readN? columns_count data).bind fun (columns_type, data) =>
  (read_lenenc_int? data).bind fun (metadata_len, data) =>
  (readN? metadata_len data).bind fun (columns_metadata, data) =>
  (readN? ((columns_count + 7) / 8) data).bind fun (null_bitmask, data) =>
  some { table_id, flags, database_name, table_name, columns_type,
         columns_metadata, null_bitmask, optional_metadata := data }

/-- `TableMapEvent::write` (`src/binlog.rs` lines 2626-2648): the
`table_id` is always written as a u48; the name-length bytes are clamped
to `u8::MAX` and the name writes go through `limit(u8::MAX)` writers
(`WriteZero` when a name exceeds 255 bytes); both NUL terminators are
written as 0. The surrounding `output.limit(S(self.len(version)))` is not
binding (`len` over-estimates the bitmask as `(n + 8) / 7` bytes and
matches every other field), so it is not modelled. -/
def TableMapEvent.write (ev : TableMapEvent) : Except IOErrorKind Bytes :=
  if 255 < ev.database_name.length ∨ 255 < ev.table_name.length then
    .error .writeZero
  else
    .ok (writeUIntLE 6 ev.table_id ++ writeUIntLE 2 ev.flags ++
      [min ev.database_name.length 255] ++ ev.database_name ++ [0] ++
      [min ev.table_name.length 255] ++ ev.table_name ++ [0] ++
      write_lenenc_int ev.get_columns_count ++ ev.columns_type ++
      write_lenenc_str ev.columns_metadata ++ ev.null_bitmask ++
      ev.optional_metadata)

/-! ## Status-variables iterator (`src/binlog.rs` lines 1767-1854)

`StatusVarKey` has discriminants 0-20; `TryFrom<u8> for StatusVarKey`
accepts exactly that range.  The iterator is modelled as its step
function on `(buf, pos)`; the raw key byte is kept as the key. -/

/-- The `get_fixed!(len)` macro of `StatusVarsIterator::next`: advance
`pos` by `len` and slice `status_vars[(pos' - len)..pos']`, stopping (no
error) if the slice is out of bounds. -/
def getFixedVal (status_vars : Bytes) (pos len : Nat) : Option (Bytes × Nat) :=
  match sliceGet status_vars pos len with
  | none => none
  | some value => some (value, pos + len)

/-- The `get_var!(suffix_len)` macro: read a length byte at `pos`, then
`get_fixed!(1 + len + suffix_len)` (the value slice includes the length
byte). -/
def getVarVal (status_vars : Bytes) (pos suffix_len : Nat) :
    Option (Bytes × Nat) :=
  match status_vars[pos]? with
  | none => none
  | some len => getFixedVal status_vars pos (1 + len + suffix_len)

/-- The `UpdatedDbNames` scan of `StatusVarsIterator::next`: starting
from `total`, for each of `count` names advance past bytes until a NUL
(inclusive); any out-of-bounds access stops iteration (`none`). -/
def dbNamesLoop (status_vars : Bytes) (pos : Nat) :
    Nat → Nat → Option Nat
  | 0, total => some total
  | count + 1, total =>
    match (status_vars.drop (pos + total)).findIdx? (· == 0) with
    | none => none
    | some k => dbNamesLoop status_vars pos count (total + k + 1)

/-- `StatusVarsIterator::next` (`src/binlog.rs` lines 1792-1854): read
the key byte at `pos` (`none` at the end of the buffer), stop silently on
an unknown key (`> 20`), and dispatch the value length by key.  Returns
`(raw key, value slice, next position)`. -/
def StatusVarsIterator.next (status_vars : Bytes) (pos : Nat) :
    Option (Nat × Bytes × Nat) :=
  match status_vars[pos]? with
  | none => none
  | some key =>
    if 20 < key then none
    else
      match (match key with
        | 0 => getFixedVal status_vars (pos + 1) 4        -- Flags2
        | 1 => getFixedVal status_vars (pos + 1) 8        -- SqlMode
        | 2 => getVarVal status_vars (pos + 1) 1          -- Catalog
        | 3 => getFixedVal status_vars (pos + 1) 4        -- AutoIncrement
        | 4 => getFixedVal status_vars (pos + 1) 6        -- Charset
        | 5 => getVarVal status_vars (pos + 1) 0          -- TimeZone
        | 6 => getVarVal status_vars (pos + 1) 0          -- CatalogNz
        | 7 => getFixedVal status_vars (pos + 1) 2        -- LcTimeNames
        | 8 => getFixedVal status_vars (pos + 1) 2        -- CharsetDatabase
        | 9 => getFixedVal status_vars (pos + 1) 8        -- TableMapForUpdate
        | 10 => getFixedVal status_vars (pos + 1) 4       -- MasterDataWritten
        | 11 =>                                           -- Invoker
          match status_vars[pos + 1]? with
          | none => none
          | some user_len =>
            match status_vars[pos + 1 + 1 + user_len]? with
            | none => none
            | some host_len =>
              getFixedVal status_vars (pos + 1) (1 + user_len + 1 + host_len)
        | 12 =>                                           -- UpdatedDbNames
          match status_vars[pos + 1]? with
          | none => none
          | some count =>
            match dbNamesLoop status_vars (pos + 1) count 1 with
            | none => none
            | some total => getFixedVal status_vars (pos + 1) total
        | 13 => getFixedVal status_vars (pos + 1) 3       -- Microseconds
        | 14 => getFixedVal status_vars (pos + 1) 0       -- CommitTs
        | 15 => getFixedVal status_vars (pos + 1) 0       -- CommitTs2
        | 16 => getFixedVal status_vars (pos + 1) 1       -- ExplicitDefaultsForTimestamp
        | 17 => getFixedVal status_vars (pos + 1) 8       -- DdlLoggedWithXid
        | 18 => getFixedVal status_vars (pos + 1) 2       -- DefaultCollationForUtf8mb4
        | 19 => getFixedVal status_vars (pos + 1) 1       -- SqlRequirePrimaryKey
        | _ => getFixedVal status_vars (pos + 1) 1) with  -- DefaultTableEncryption (20)
      | none => none
      | some (value, pos') => some (key, value, pos')

/-- Spec-side total of the NUL-terminated names of `UpdatedDbNames`
(claim C6 / spec §4.9): `Σ (name_len + 1)` over `count` NUL-terminated
names starting at `pos`; `none` when a name never terminates inside the
buffer. -/
def specNulNamesLen (buf : Bytes) (pos : Nat) : Nat → Option Nat
  | 0 => some 0
  | count + 1 =>
    match (buf.drop pos).findIdx? (· == 0) with
    | none => none
    | some k => (specNulNamesLen buf (pos + k + 1) count).map (fun s => k + 1 + s)

/-- Spec-side value length of claim C6 / spec §4.9, by raw key, for a
variable whose value starts at `pos`: Flags2 4, SqlMode 8, Catalog
1+len+1, AutoIncrement 4, Charset 6, TimeZone and CatalogNz 1+len,
LcTimeNames, CharsetDatabase and DefaultCollationForUtf8mb4 2,
TableMapForUpdate and DdlLoggedWithXid 8, MasterDataWritten 4, Invoker
1+user_len+1+host_len, UpdatedDbNames 1 plus the NUL-terminated names,
Microseconds 3, CommitTs and CommitTs2 0, ExplicitDefaultsForTimestamp,
SqlRequirePrimaryKey and DefaultTableEncryption 1; unknown keys have no
length. -/
def specStatusVarLen (buf : Bytes) (pos : Nat) : Nat → Option Nat
  | 0 => some 4
  | 1 => some 8
  | 2 => (buf[pos]?).map (fun len => 1 + len + 1)
  | 3 => some 4
  | 4 => some 6
  | 5 => (buf[pos]?).map (fun len => 1 + len)
  | 6 => (buf[pos]?).map (fun len => 1 + len)
  | 7 => some 2
  | 8 => some 2
  | 9 => some 8
  | 10 => some 4
  | 11 =>
    match buf[pos]? with
    | none => none
    | some user_len =>
      (buf[pos + 1 + user_len]?).map
        (fun host_len => 1 + user_len + 1 + host_len)
  | 12 =>
    match buf[pos]? with
    | none => none
    | some count => (specNulNamesLen buf (pos + 1) count).map (fun s => 1 + s)
  | 13 => some 3
  | 14 => some 0
  | 15 => some 0
  | 16 => some 1
  | 17 => some 8
  | 18 => some 2
  | 19 => some 1
  | 20 => some 1
  | _ => none

/-- Spec-side iterator step (claim C6): read the key byte at `pos`; an
unknown key or a value length that runs past the end of the buffer ends
iteration without error; otherwise yield the key, the value slice of the
tabulated length, and the position right after it. -/
def specStatusVarsNext (buf : Bytes) (pos : Nat) : Option (Nat × Bytes × Nat) :=
  match buf[pos]? with
  | none => none
  | some key =>
    match specStatusVarLen buf (pos + 1) key with
    | none => none
    | some len =>
      if pos + 1 + len ≤ buf.length then
        some (key, (buf.drop (pos + 1)).take len, pos + 1 + len)
      else none

/-! ## User variable event (`UserVarEvent`, `src/binlog.rs` lines 2269-2386) -/

/-- `UserVarEvent`.  `value_type` is the raw `i8` wire byte (the `i8`
round-trips through the byte unchanged) and `flags` the raw flags
byte. -/
structure UserVarEvent where
  name : Bytes
  is_null : Bool
  value_type : Nat
  charset : Nat
  value : Bytes
  flags : Nat
deriving DecidableEq, Repr

/-- `UserVarEvent::read` as invoked through `Event::read_event` (the
length-limited input is exactly the body list): `name_len:u32`, `name`,
`is_null:u8`; for a null value the remaining fields are defaulted
(`value_type` is `ItemResult::STRING_RESULT as i8`, i.e. 0, per
`crate::constants::ItemResult`); otherwise `value_type:i8`,
`charset:u32`, `value_len:u32`, `value`, then a flags byte only if bytes
remain, and finally the "bytes remaining on stream" check. -/
def UserVarEvent.read? (data : Bytes) : Option UserVarEvent :=
  (readUIntLE 4 data).bind fun (name_len, data) =>
  (readN? name_len data).bind fun (name, data) =>
  (readUIntLE 1 data).bind fun (is_null_byte, data) =>
  if is_null_byte ≠ 0 then
    some { name, is_null := true, value_type := 0, charset := 63,
           value := [], flags := 0 }
  else
    (readUIntLE 1 data).bind fun (value_type, data) =>
    (readUIntLE 4 data).bind fun (charset, data) =>
    (readUIntLE 4 data).bind fun (value_len, data) =>
    (readN? value_len data).bind fun (value, data) =>
    (if 0 < data.length then readUIntLE 1 data
      else some (0, data)).bind fun (flags, data) =>
    if 0 < data.length then none
    else some { name, is_null := false, value_type, charset, value, flags }

/-- `UserVarEvent::write`: `name_len` (`name.len() as u32`), `name`,
`is_null as u8`, and for non-null values `value_type`, `charset`,
`value_len` (`value.len() as u32`), `value` and always a flags byte.  The
surrounding `output.limit(S(self.len(version)))` (with `len` clamping
name and value to `u32::MAX`) turns a name or value longer than
`u32::MAX` into a `WriteZero`. -/
def UserVarEvent.write (ev : UserVarEvent) : Except IOErrorKind Bytes :=
  if 2 ^ 32 ≤ ev.name.length ∨ (¬ev.is_null ∧ 2 ^ 32 ≤ ev.value.length) then
    .error .writeZero
  else
    .ok (writeUIntLE 4 (ev.name.length % 2 ^ 32) ++ ev.name ++
      [if ev.is_null then 1 else 0] ++
      (if ev.is_null then [] else
        writeUIntLE 1 ev.value_type ++ writeUIntLE 4 ev.charset ++
          writeUIntLE 4 (ev.value.length % 2 ^ 32) ++ ev.value ++
          writeUIntLE 1 ev.flags))

/-! ## Rows events (`RowsEvent`, `src/binlog.rs` lines 2735-2924) -/

/-- The bits of one byte, least-significant first (`bitvec`'s `Lsb0`
ordering over a `u8` store). -/
def byteBits (b : Nat) : List Bool :=
  [b.testBit 0, b.testBit 1, b.testBit 2, b.testBit 3,
    b.testBit 4, b.testBit 5, b.testBit 6, b.testBit 7]

/-- `BitVec::from_vec`: all bits of a byte vector, `Lsb0` within each
byte. -/
def bytesToBits (bs : Bytes) : List Bool := bs.flatMap byteBits

/-- The byte holding up to 8 bits, least-significant first. -/
def bitsToByte (l : List Bool) : Nat :=
  l.foldr (fun b acc => acc * 2 + cond b 1 0) 0

/-- `BitVec::as_raw_slice` of an `Lsb0, u8` bit vector: the bits chunked
into bytes of 8, the last byte padded with zero bits. -/
def bitsToBytes : List Bool → Bytes
  | [] => []
  | b0 :: b1 :: b2 :: b3 :: b4 :: b5 :: b6 :: b7 :: rest =>
    bitsToByte [b0, b1, b2, b3, b4, b5, b6, b7] :: bitsToBytes rest
  | l => [bitsToByte l]

/-- `RowsEvent` (common base of the v2 write/update/delete rows events).
The two column images are the decoded bit vectors (already truncated to
`num_columns` bits by `read`). -/
structure RowsEvent where
  table_id : Nat
  flags : Nat
  extra_data : Bytes
  num_columns : Nat
  columns_before_image : Option (List Bool)
  columns_after_image : Option (List Bool)
  rows_data : Bytes
deriving DecidableEq, Repr

/-- `RowsEvent::read` (`src/binlog.rs` lines 2780-2858) as invoked
through the `BinlogStruct` impls of `WriteRowsEvent` / `UpdateRowsEvent`
/ `DeleteRowsEvent` (so the length-limited input is exactly the body
list).

* `table_id` is a u32 if the FDE's post-header length for this event
  type is 6, else a u48;
* the extra-data block exists iff that post-header length equals the
  FDE's length for `WRITE_ROWS_EVENT` (the v2 shape); its length prefix
  is a u16 counted inclusively (`saturating_sub(2)`);
* each present column image is read from `(num_columns + 7) / 8` bytes
  and truncated to `num_columns` bits; the before-image exists for
  update/delete events, the after-image for update and all other
  (write) events;
* the remaining bytes are `rows_data` (the whole body is consumed). -/
def RowsEvent.read? (event_type : EventType) (fde : FormatDescriptionEvent)
    (data : Bytes) : Option RowsEvent :=
  let post_header_len := fde.get_event_type_header_length event_type
  let is_delete_event : Bool := event_type == .DELETE_ROWS_EVENT ||
    event_type == .DELETE_ROWS_EVENT_V1
  let is_update_event : Bool := event_type == .UPDATE_ROWS_EVENT ||
    event_type == .UPDATE_ROWS_EVENT_V1 ||
    event_type == .PARTIAL_UPDATE_ROWS_EVENT
  (if post_header_len = 6 then readUIntLE 4 data
    else readUIntLE 6 data).bind fun (table_id, data) =>
  (readUIntLE 2 data).bind fun (flags, data) =>
  (if post_header_len =
      fde.get_event_type_header_length .WRITE_ROWS_EVENT then
    (readUIntLE 2 data).bind fun (extra_data_len, data) =>
    (readN? (extra_data_len - 2) data).bind fun (extra_data, data) =>
    some (extra_data, data)
  else some ([], data)).bind fun (extra_data, data) =>
  (read_lenenc_int? data).bind fun (num_columns, data) =>
  (readN? ((num_columns + 7) / 8) data).bind fun (columns_image_1, data) =>
  (if is_update_event then
    (readN? ((num_columns + 7) / 8) data).bind fun (columns_image_2, data) =>
    some (some columns_image_2, data)
  else some (none, data)).bind fun (columns_image_2, data) =>
  let images : Option Bytes × Option Bytes :=
    if is_update_event then (some columns_image_1, columns_image_2)
    else if is_delete_event then (some columns_image_1, none)
    else (none, some columns_image_1)
  some { table_id, flags, extra_data, num_columns
         columns_before_image :=
           images.1.map fun v => (bytesToBits v).take num_columns
         columns_after_image :=
           images.2.map fun v => (bytesToBits v).take num_columns
         rows_data := data }

/-- `RowsEvent::write` (`src/binlog.rs` lines 2863-2901): `table_id`
always as a u48; flags; the extra-data length prefix
`min(extra_data.len() + 2, u16::MAX)` (a longer block hits the
`limit(u16::MAX - 2)` writer and `WriteZero`); `num_columns` as a lenenc
integer; then the raw bytes of the present images through a writer
limited to `bitmap_len * num_bitmaps` (`WriteZero` when they are longer,
and the source's explicit `UnexpectedEof` check when they leave part of
the limit unfilled); finally `rows_data`.  The surrounding
`output.limit(S(self.len(version)))` is not binding for the cases
modelled here and is not modelled. -/
def RowsEvent.write (ev : RowsEvent) : Except IOErrorKind Bytes :=
  if 65535 - 2 < ev.extra_data.length then .error .writeZero
  else
    let bitmap_len := (ev.num_columns + 7) / 8
    let num_bitmaps := (if ev.columns_before_image.isSome then 1 else 0) +
      (if ev.columns_after_image.isSome then 1 else 0)
    let image_1 := (ev.columns_before_image.map bitsToBytes).getD []
    let image_2 := (ev.columns_after_image.map bitsToBytes).getD []
    if bitmap_len * num_bitmaps < image_1.length + image_2.length then
      .error .writeZero
    else if image_1.length + image_2.length < bitmap_len * num_bitmaps then
      .error .unexpectedEof
    else
      .ok (writeUIntLE 6 ev.table_id ++ writeUIntLE 2 ev.flags ++
        writeUIntLE 2 (min (ev.extra_data.length + 2) 65535) ++
        ev.extra_data ++ write_lenenc_int ev.num_columns ++
        image_1 ++ image_2 ++ ev.rows_data)

/-! ## Theorems for the claims -/

/-- C9: `BinlogFileHeader::read` succeeds exactly on inputs whose first
four bytes are `FE 62 69 6E` (returning the header value and the rest of
the stream); on any input holding at least 4 bytes whose 4-byte prefix
differs it fails with `InvalidData` (and a source shorter than 4 bytes
fails with `UnexpectedEof`, so no other input succeeds). -/
theorem c9_file_header_sentinel (input : Bytes) :
    (input.take 4 = BinlogFileHeader.VALUE ∧ 4 ≤ input.length ↔
      BinlogFileHeader.read input = .ok ((), input.drop 4)) ∧
    (4 ≤ input.length → input.take 4 ≠ BinlogFileHeader.VALUE →
      BinlogFileHeader.read input = .ioError .invalidData) ∧
    (input.length < 4 → BinlogFileHeader.read input = .ioError .unexpectedEof) := by
  unfold BinlogFileHeader.read BinlogFileHeader.LEN
  refine ⟨⟨fun ⟨hv, hlen⟩ => ?_, fun h => ?_⟩, fun hlen hv => ?_, fun hlen => ?_⟩
  · rw [show readN? 4 input = some (input.take 4, input.drop 4) from by
      simp [readN?, hlen]]
    dsimp only
    rw [if_pos hv]
  · cases hr : readN? 4 input with
    | none =>
      rw [hr] at h
      exact absurd h (by simp)
    | some p =>
      obtain ⟨buf, rest⟩ := p
      rw [hr] at h
      dsimp only at h
      obtain ⟨hin, hlen⟩ := readN?_eq_some hr
      by_cases hv : buf = BinlogFileHeader.VALUE
      · subst hin
        refine ⟨?_, ?_⟩
        · rw [List.take_append_of_le_length (by omega), ← hlen,
            List.take_length, hv]
        · simp; omega
      · rw [if_neg hv] at h
        exact absurd h (by simp)
  · rw [show readN? 4 input = some (input.take 4, input.drop 4) from by
      simp [readN?, hlen]]
    dsimp only
    rw [if_neg hv]
  · rw [show readN? 4 input = none from by simp [readN?]; omega]

/-- C9 witness: the genuine sentinel (with a 2-byte tail) decodes
successfully, and flipping the first byte yields `InvalidData`. -/
theorem c9_file_header_sentinel_witness :
    BinlogFileHeader.read [0xfe, 0x62, 0x69, 0x6e, 7, 8] = .ok ((), [7, 8]) ∧
    BinlogFileHeader.read [0x00, 0x62, 0x69, 0x6e] = .ioError .invalidData := by
  constructor
  · exact (c9_file_header_sentinel [0xfe, 0x62, 0x69, 0x6e, 7, 8]).1.mp
      ⟨by decide, by decide⟩
  · exact (c9_file_header_sentinel [0x00, 0x62, 0x69, 0x6e]).2.1
      (by decide) (by decide)

/-- C8: `get_event_type_header_length` returns the post-header-length
table entry at index `event_type as u8 - 1` when it exists and the
built-in default otherwise, with 0 for `UNKNOWN_EVENT` regardless of the
table; the defaults for `QUERY_EVENT`, `ROTATE_EVENT` and the v2
write/update/delete rows events are 13, 8 and 10. -/
theorem c8_event_type_header_length (fde : FormatDescriptionEvent)
    (t : EventType) :
    fde.get_event_type_header_length t =
      (if t = .UNKNOWN_EVENT then 0
       else (fde.event_type_header_lengths[t.toNat - 1]?).getD
         (defaultHeaderLength t)) ∧
    defaultHeaderLength .QUERY_EVENT = 13 ∧
    defaultHeaderLength .ROTATE_EVENT = 8 ∧
    defaultHeaderLength .WRITE_ROWS_EVENT = 10 ∧
    defaultHeaderLength .UPDATE_ROWS_EVENT = 10 ∧
    defaultHeaderLength .DELETE_ROWS_EVENT = 10 := by
  refine ⟨?_, by decide, by decide, by decide, by decide, by decide⟩
  unfold FormatDescriptionEvent.get_event_type_header_length
  by_cases ht : t = .UNKNOWN_EVENT
  · rw [if_pos ht, if_pos ht]
  · rw [if_neg ht, if_neg ht]
    cases fde.event_type_header_lengths[t.toNat - 1]? <;> rfl

/-- C2 failing input: a `TableMapEvent` with column types
`[VARCHAR, BLOB, VARCHAR]` (bytes `[15, 252, 15]`) and the five metadata
bytes `[10, 11, 12, 13, 14]`. -/
def c2_table_map : TableMapEvent :=
  { table_id := 0
    flags := 0
    database_name := []
    table_name := []
    columns_type := [15, 252, 15]
    columns_metadata := [10, 11, 12, 13, 14]
    null_bitmask := [0]
    optional_metadata := [] }

/-- C2: evaluating `get_column_metadata` at the failing input.  The claim
(and spec scenario E) expects `some [10, 11]`, `some [12]`,
`some [13, 14]`; the code returns `some [10, 11]`, `some [11]`, `none`,
because the offset loop reads `columns_type.get(col_idx)` instead of the
loop index, so the offset for column `i` is
`i * metadata_len(columns_type[i])` instead of the sum over the previous
columns. -/
theorem c2_get_column_metadata_eval :
    c2_table_map.get_column_metadata 0 = some [10, 11] ∧
    c2_table_map.get_column_metadata 1 = some [11] ∧
    c2_table_map.get_column_metadata 2 = none := by decide

/-- C1 failing input: a valid 19-byte header declaring
`event_size = 21` (so a 2-byte body), followed by only one body byte. -/
def c1_truncated_source : Bytes :=
  [0, 0, 0, 0, 2, 0, 0, 0, 0, 21, 0, 0, 0, 0, 0, 0, 0, 0, 0, 0]

/-- C1: evaluating the framing layer at the boundaries the claim talks
about.  A source exhausted at an event boundary makes `Event::read`
return `UnexpectedEof` and ends `BinlogFile` iteration with no item and
no error, and a source that ends inside the 19-byte header also returns
`UnexpectedEof` — but a source that ends inside the declared body makes
`Event::read` *panic* (`input.read_exact(&mut data).unwrap()`), not
return an `UnexpectedEof` error as the claim states. -/
theorem c1_event_stream_eof_eval :
    Event.read (FormatDescriptionEvent.new 4) [] = .ioError .unexpectedEof ∧
    BinlogFile.next (FormatDescriptionEvent.new 4) [] = none ∧
    Event.read (FormatDescriptionEvent.new 4) [0, 0, 0, 0, 2] =
      .ioError .unexpectedEof ∧
    Event.read (FormatDescriptionEvent.new 4) c1_truncated_source =
      .panicked := by decide

/-- C3 counterexample input: a 19-byte header declaring
`event_size = 5 < 19` (event type `QUERY_EVENT`), with nothing after
it. -/
def c3_small_event_size_input : Bytes :=
  [0, 0, 0, 0, 2, 0, 0, 0, 0, 5, 0, 0, 0, 0, 0, 0, 0, 0, 0]

/-- C3 counterexample: the claim says `Event::read` must fail with an
error on a header declaring `event_size < 19`; on this input it
succeeds. -/
theorem c3_counterexample :
    (Event.read (FormatDescriptionEvent.new 4)
      c3_small_event_size_input).isOk = true := by decide

/-- C3 (amended): there is no `event_size >= 19` check in the framer.
For any header declaring `event_size < 19` whose event type is not an
FDE, under an active FDE whose footer does not enable checksums (the
default state), `Event::read` *succeeds* with an empty body: the body
length `S(event_size) - S(19)` saturates to 0. -/
theorem c3_small_event_size_reads_empty (fde : FormatDescriptionEvent)
    (input rest : Bytes) (header : BinlogEventHeader)
    (hh : BinlogEventHeader.read? input = some (header, rest))
    (hsize : header.event_size < 19)
    (hnf : header.event_type ≠ 15)
    (halg : fde.footer.checksum_alg = none ∨ fde.footer.checksum_alg = some 0) :
    Event.read fde input =
      .ok ({ header, data := [], footer := fde.footer,
             checksum := [0, 0, 0, 0] }, rest) := by
  unfold Event.read
  rw [hh]
  dsimp only
  have hn : header.event_size - BinlogEventHeader.LEN = 0 := by
    unfold BinlogEventHeader.LEN; omega
  rw [hn, show readN? 0 rest = some ([], rest) from by simp [readN?]]
  dsimp only
  have hfde : ¬(header.event_type = EventType.FORMAT_DESCRIPTION_EVENT.toNat) := by
    simpa [EventType.toNat] using hnf
  rw [if_neg hfde]
  rw [if_neg (show ¬(fde.footer.checksum_alg ≠ none ∧
      (header.event_type = EventType.FORMAT_DESCRIPTION_EVENT.toNat ∨
        fde.footer.checksum_alg ≠ some 0)) from by
    rcases halg with h | h <;> simp [h, hfde])]
  rw [if_neg (show ¬(header.event_type = EventType.FORMAT_DESCRIPTION_EVENT.toNat ∧
      fde.footer.checksum_alg ≠ none) from by simp [hfde])]
  simp [List.replicate]

/-- C3 witness for the amended statement, at the concrete counterexample
input. -/
theorem c3_small_event_size_reads_empty_witness :
    Event.read (FormatDescriptionEvent.new 4) c3_small_event_size_input =
      .ok ({ header := { timestamp := 0, event_type := 2, server_id := 0,
                         event_size := 5, log_pos := 0, flags := 0 },
             data := [], footer := BinlogEventFooter.default,
             checksum := [0, 0, 0, 0] }, []) :=
  c3_small_event_size_reads_empty (FormatDescriptionEvent.new 4)
    c3_small_event_size_input [] _ (by decide) (by decide) (by decide)
    (Or.inr (by decide))

/-- C4: `BinlogEventFooter::read` on an FDE body of length at least
`SERVER_VER_OFFSET + 50 = 52` parses the 50-byte server-version field at
offset 2 with its last byte forced to NUL; the checksum algorithm is
`none` when the parsed `(major, minor, patch)` triple is strictly below
`(5, 6, 1)` and otherwise the raw byte at index `body_len - 5`; a body
shorter than 52 bytes yields `none`. -/
theorem c4_footer_checksum_alg (buf : Bytes) :
    (buf.length < 52 → BinlogEventFooter.read buf = ⟨none⟩) ∧
    (52 ≤ buf.length →
      BinlogEventFooter.read buf =
        (if versionLt (split_version (((buf.drop 2).take 50).set 49 0))
            (5, 6, 1)
         then ⟨none⟩
         else ⟨some (buf.getD (buf.length - 5) 0)⟩)) := by
  constructor
  · intro hlen
    unfold BinlogEventFooter.read SERVER_VER_OFFSET SERVER_VER_LEN
    rw [if_neg (by omega)]
  · intro hlen
    unfold BinlogEventFooter.read SERVER_VER_OFFSET SERVER_VER_LEN
      BinlogEventFooter.CHECKSUM_VERSION_PRODUCT
      BinlogEventFooter.BINLOG_CHECKSUM_ALG_DESC_LEN
      BinlogEventFooter.BINLOG_CHECKSUM_LEN
    rw [if_pos (by omega)]

/-- C4 witness: a 52-byte FDE body whose server version reads
`"5.6.1-log"` stores the byte at index `52 - 5 = 47` (here 1), while one
reading `"5.5.62"` reports no checksum, and a 51-byte body reports no
checksum. -/
theorem c4_footer_checksum_alg_witness :
    BinlogEventFooter.read (0 :: 0 ::
        ([53, 46, 54, 46, 49, 45, 108, 111, 103] ++
          List.replicate 36 0 ++ [1, 0, 0, 0, 0]) ) =
      ⟨some 1⟩ ∧
    BinlogEventFooter.read (0 :: 0 ::
        ([53, 46, 53, 46, 54, 50] ++ List.replicate 44 0)) = ⟨none⟩ ∧
    BinlogEventFooter.read (List.replicate 51 53) = ⟨none⟩ := by
  refine ⟨?_, ?_, ?_⟩
  · rw [(c4_footer_checksum_alg _).2 (by decide)]
    decide
  · rw [(c4_footer_checksum_alg _).2 (by decide)]
    decide
  · rw [(c4_footer_checksum_alg _).1 (by decide)]

theorem dbNamesLoop_eq_spec (count : Nat) (buf : Bytes) (p total : Nat) :
    dbNamesLoop buf p count total =
      (specNulNamesLen buf (p + total) count).map (fun s => total + s) := by
  induction count generalizing total with
  | zero => simp [dbNamesLoop, specNulNamesLen]
  | succ n ih =>
    unfold dbNamesLoop specNulNamesLen
    cases h : (buf.drop (p + total)).findIdx? (· == 0) with
    | none => simp [h]
    | some k =>
      dsimp only
      rw [ih, show p + (total + k + 1) = p + total + k + 1 from by omega]
      cases specNulNamesLen buf (p + total + k + 1) n with
      | none => rfl
      | some s => simp; omega

/-- C6: the `StatusVarsIterator` step agrees, on every buffer and every
position, with the spec-side step: the key byte is read at `pos`; an
unknown key (`> 20`) or a value length that runs past the end of the
buffer ends iteration without error; otherwise the variable is yielded
with the value slice of exactly the tabulated length (Flags2 4, SqlMode
8, Catalog 1+len+1, AutoIncrement 4, Charset 6, TimeZone/CatalogNz
1+len, LcTimeNames/CharsetDatabase/DefaultCollationForUtf8mb4 2,
TableMapForUpdate/DdlLoggedWithXid 8, MasterDataWritten 4, Invoker
1+user_len+1+host_len, UpdatedDbNames 1 plus the NUL-terminated names,
Microseconds 3, CommitTs/CommitTs2 0, ExplicitDefaultsForTimestamp/
SqlRequirePrimaryKey/DefaultTableEncryption 1) and the cursor advances
past it, so iteration yields the variables in source order. -/
theorem c6_status_vars_iterator (buf : Bytes) (pos : Nat) :
    StatusVarsIterator.next buf pos = specStatusVarsNext buf pos := by
  unfold StatusVarsIterator.next specStatusVarsNext
  cases hk : buf[pos]? with
  | none => rfl
  | some key =>
    dsimp only
    by_cases h20 : 20 < key
    · rw [if_pos h20]
      obtain ⟨m, rfl⟩ : ∃ m, key = m + 21 := ⟨key - 21, by omega⟩
      rfl
    · rw [if_neg h20]
      interval_cases key
      -- 0: Flags2
      · by_cases h : pos + 1 + 4 ≤ buf.length <;>
          simp [specStatusVarLen, getFixedVal, sliceGet, h]
      -- 1: SqlMode
      · by_cases h : pos + 1 + 8 ≤ buf.length <;>
          simp [specStatusVarLen, getFixedVal, sliceGet, h]
      -- 2: Catalog
      · cases hl : buf[pos + 1]? with
        | none => simp [specStatusVarLen, getVarVal, hl]
        | some len =>
          by_cases h : pos + 1 + (1 + len + 1) ≤ buf.length <;>
            simp [specStatusVarLen, getVarVal, getFixedVal, sliceGet, hl, h]
      -- 3: AutoIncrement
      · by_cases h : pos + 1 + 4 ≤ buf.length <;>
          simp [specStatusVarLen, getFixedVal, sliceGet, h]
      -- 4: Charset
      · by_cases h : pos + 1 + 6 ≤ buf.length <;>
          simp [specStatusVarLen, getFixedVal, sliceGet, h]
      -- 5: TimeZone
      · cases hl : buf[pos + 1]? with
        | none => simp [specStatusVarLen, getVarVal, hl]
        | some len =>
          by_cases h : pos + 1 + (1 + len) ≤ buf.length <;>
            simp [specStatusVarLen, getVarVal, getFixedVal, sliceGet, hl, h]
      -- 6: CatalogNz
      · cases hl : buf[pos + 1]? with
        | none => simp [specStatusVarLen, getVarVal, hl]
        | some len =>
          by_cases h : pos + 1 + (1 + len) ≤ buf.length <;>
            simp [specStatusVarLen, getVarVal, getFixedVal, sliceGet, hl, h]
      -- 7: LcTimeNames
      · by_cases h : pos + 1 + 2 ≤ buf.length <;>
          simp [specStatusVarLen, getFixedVal, sliceGet, h]
      -- 8: CharsetDatabase
      · by_cases h : pos + 1 + 2 ≤ buf.length <;>
          simp [specStatusVarLen, getFixedVal, sliceGet, h]
      -- 9: TableMapForUpdate
      · by_cases h : pos + 1 + 8 ≤ buf.length <;>
          simp [specStatusVarLen, getFixedVal, sliceGet, h]
      -- 10: MasterDataWritten
      · by_cases h : pos + 1 + 4 ≤ buf.length <;>
          simp [specStatusVarLen, getFixedVal, sliceGet, h]
      -- 11: Invoker
      · cases hu : buf[pos + 1]? with
        | none => simp [specStatusVarLen, hu]
        | some user_len =>
          cases hh : buf[pos + 1 + 1 + user_len]? with
          | none => simp [specStatusVarLen, hu, hh]
          | some host_len =>
            by_cases h : pos + 1 + (1 + user_len + 1 + host_len) ≤ buf.length <;>
              simp [specStatusVarLen, getFixedVal, sliceGet, hu, hh, h]
      -- 12: UpdatedDbNames
      · cases hc : buf[pos + 1]? with
        | none => simp [specStatusVarLen, hc]
        | some count =>
          dsimp only
          rw [dbNamesLoop_eq_spec]
          cases hs : specNulNamesLen buf (pos + 1 + 1) count with
          | none => simp [specStatusVarLen, hc, hs]
          | some s =>
            by_cases h : pos + 1 + (1 + s) ≤ buf.length <;>
              simp [specStatusVarLen, getFixedVal, sliceGet, hc, hs, h]
      -- 13: Microseconds
      · by_cases h : pos + 1 + 3 ≤ buf.length <;>
          simp [specStatusVarLen, getFixedVal, sliceGet, h]
      -- 14: CommitTs
      · by_cases h : pos + 1 + 0 ≤ buf.length <;>
          simp [specStatusVarLen, getFixedVal, sliceGet, h]
      -- 15: CommitTs2
      · by_cases h : pos + 1 + 0 ≤ buf.length <;>
          simp [specStatusVarLen, getFixedVal, sliceGet, h]
      -- 16: ExplicitDefaultsForTimestamp
      · by_cases h : pos + 1 + 1 ≤ buf.length <;>
          simp [specStatusVarLen, getFixedVal, sliceGet, h]
      -- 17: DdlLoggedWithXid
      · by_cases h : pos + 1 + 8 ≤ buf.length <;>
          simp [specStatusVarLen, getFixedVal, sliceGet, h]
      -- 18: DefaultCollationForUtf8mb4
      · by_cases h : pos + 1 + 2 ≤ buf.length <;>
          simp [specStatusVarLen, getFixedVal, sliceGet, h]
      -- 19: SqlRequirePrimaryKey
      · by_cases h : pos + 1 + 1 ≤ buf.length <;>
          simp [specStatusVarLen, getFixedVal, sliceGet, h]
      -- 20: DefaultTableEncryption
      · by_cases h : pos + 1 + 1 ≤ buf.length <;>
          simp [specStatusVarLen, getFixedVal, sliceGet, h]

theorem length_byteBits (b : Nat) : (byteBits b).length = 8 := rfl

theorem length_bytesToBits (bs : Bytes) :
    (bytesToBits bs).length = 8 * bs.length := by
  induction bs with
  | nil => rfl
  | cons b rest ih =>
    simp only [bytesToBits, List.flatMap_cons, List.length_append] at *
    rw [ih]
    simp [length_byteBits]
    ring

theorem length_take_bits {raw : Bytes} {n : Nat}
    (hlen : raw.length = (n + 7) / 8) :
    ((bytesToBits raw).take n).length = n := by
  rw [List.length_take, length_bytesToBits, hlen]
  omega

/-- C5: whenever `RowsEvent::read` succeeds for one of the v2 rows event
types (the types its `BinlogStruct` callers pass), the before-image is
present exactly for UPDATE and DELETE events, the after-image exactly for
UPDATE and WRITE events, and each present image was read from
`(num_columns + 7) / 8` wire bytes and holds exactly `num_columns` bits
after truncation. -/
theorem c5_rows_event_images (t : EventType) (fde : FormatDescriptionEvent)
    (data : Bytes) (ev : RowsEvent)
    (ht : t = .WRITE_ROWS_EVENT ∨ t = .UPDATE_ROWS_EVENT ∨
      t = .DELETE_ROWS_EVENT)
    (h : RowsEvent.read? t fde data = some ev) :
    (ev.columns_before_image.isSome ↔
      (t = .UPDATE_ROWS_EVENT ∨ t = .DELETE_ROWS_EVENT)) ∧
    (ev.columns_after_image.isSome ↔
      (t = .UPDATE_ROWS_EVENT ∨ t = .WRITE_ROWS_EVENT)) ∧
    (∀ img, ev.columns_before_image = some img →
      img.length = ev.num_columns ∧
      ∃ raw, raw.length = (ev.num_columns + 7) / 8 ∧
        img = (bytesToBits raw).take ev.num_columns) ∧
    (∀ img, ev.columns_after_image = some img →
      img.length = ev.num_columns ∧
      ∃ raw, raw.length = (ev.num_columns + 7) / 8 ∧
        img = (bytesToBits raw).take ev.num_columns) := by
  rcases ht with rfl | rfl | rfl
  · -- WRITE_ROWS_EVENT: is_update = false, is_delete = false
    unfold RowsEvent.read? at h
    simp only [show ((EventType.WRITE_ROWS_EVENT == .DELETE_ROWS_EVENT ||
        EventType.WRITE_ROWS_EVENT == .DELETE_ROWS_EVENT_V1) : Bool) = false
        from by decide,
      show ((EventType.WRITE_ROWS_EVENT == .UPDATE_ROWS_EVENT ||
        EventType.WRITE_ROWS_EVENT == .UPDATE_ROWS_EVENT_V1 ||
        EventType.WRITE_ROWS_EVENT == .PARTIAL_UPDATE_ROWS_EVENT) : Bool) =
        false from by decide,
      Bool.false_eq_true, if_false, Option.some_bind,
      Option.bind_eq_some] at h
    obtain ⟨⟨table_id, d1⟩, h1, h⟩ := h
    obtain ⟨⟨flags, d2⟩, h2, h⟩ := h
    obtain ⟨⟨extra, d3⟩, h3, h⟩ := h
    obtain ⟨⟨n, d4⟩, h4, h⟩ := h
    obtain ⟨⟨img1, d5⟩, h5, h⟩ := h
    simp only [Option.some.injEq] at h
    subst h
    obtain ⟨-, himg1len⟩ := readN?_eq_some h5
    refine ⟨by simp, by simp, ?_, ?_⟩
    · intro img himg
      simp at himg
    · intro img himg
      simp only [Option.map_some', Option.map_some, Option.some.injEq] at himg
      subst himg
      exact ⟨length_take_bits himg1len, img1, himg1len, rfl⟩
  · -- UPDATE_ROWS_EVENT: is_update = true, is_delete = false
    unfold RowsEvent.read? at h
    simp only [show ((EventType.UPDATE_ROWS_EVENT == .DELETE_ROWS_EVENT ||
        EventType.UPDATE_ROWS_EVENT == .DELETE_ROWS_EVENT_V1) : Bool) = false
        from by decide,
      show ((EventType.UPDATE_ROWS_EVENT == .UPDATE_ROWS_EVENT ||
        EventType.UPDATE_ROWS_EVENT == .UPDATE_ROWS_EVENT_V1 ||
        EventType.UPDATE_ROWS_EVENT == .PARTIAL_UPDATE_ROWS_EVENT) : Bool) =
        true from by decide,
      Bool.false_eq_true, if_false, if_true, Option.some_bind,
      Option.bind_eq_some] at h
    obtain ⟨⟨table_id, d1⟩, h1, h⟩ := h
    obtain ⟨⟨flags, d2⟩, h2, h⟩ := h
    obtain ⟨⟨extra, d3⟩, h3, h⟩ := h
    obtain ⟨⟨n, d4⟩, h4, h⟩ := h
    obtain ⟨⟨img1, d5⟩, h5, h⟩ := h
    obtain ⟨⟨img2opt, d6⟩, h6, h⟩ := h
    obtain ⟨⟨img2, d6'⟩, h6a, h6b⟩ := h6
    simp only [Option.some.injEq, Prod.mk.injEq] at h6b
    obtain ⟨rfl, rfl⟩ := h6b
    simp only [Option.some.injEq] at h
    subst h
    obtain ⟨-, himg1len⟩ := readN?_eq_some h5
    obtain ⟨-, himg2len⟩ := readN?_eq_some h6a
    refine ⟨by simp, by simp, ?_, ?_⟩
    · intro img himg
      simp only [Option.map_some', Option.map_some, Option.some.injEq] at himg
      subst himg
      exact ⟨length_take_bits himg1len, img1, himg1len, rfl⟩
    · intro img himg
      simp only [Option.map_some', Option.map_some, Option.some.injEq] at himg
      subst himg
      exact ⟨length_take_bits himg2len, img2, himg2len, rfl⟩
  · -- DELETE_ROWS_EVENT: is_update = false, is_delete = true
    unfold RowsEvent.read? at h
    simp only [show ((EventType.DELETE_ROWS_EVENT == .DELETE_ROWS_EVENT ||
        EventType.DELETE_ROWS_EVENT == .DELETE_ROWS_EVENT_V1) : Bool) = true
        from by decide,
      show ((EventType.DELETE_ROWS_EVENT == .UPDATE_ROWS_EVENT ||
        EventType.DELETE_ROWS_EVENT == .UPDATE_ROWS_EVENT_V1 ||
        EventType.DELETE_ROWS_EVENT == .PARTIAL_UPDATE_ROWS_EVENT) : Bool) =
        false from by decide,
      Bool.false_eq_true, if_false, if_true, Option.some_bind,
      Option.bind_eq_some] at h
    obtain ⟨⟨table_id, d1⟩, h1, h⟩ := h
    obtain ⟨⟨flags, d2⟩, h2, h⟩ := h
    obtain ⟨⟨extra, d3⟩, h3, h⟩ := h
    obtain ⟨⟨n, d4⟩, h4, h⟩ := h
    obtain ⟨⟨img1, d5⟩, h5, h⟩ := h
    simp only [Option.some.injEq] at h
    subst h
    obtain ⟨-, himg1len⟩ := readN?_eq_some h5
    refine ⟨by simp, by simp, ?_, ?_⟩
    · intro img himg
      simp only [Option.map_some', Option.map_some, Option.some.injEq] at himg
      subst himg
      exact ⟨length_take_bits himg1len, img1, himg1len, rfl⟩
    · intro img himg
      simp at himg

/-- C5 witness data: a v2 WRITE rows body under the default FDE
(post-header 10, so a u48 table id and an extra-data block): zero table
id, zero flags, empty extra data (inclusive length prefix 2), one
column, a one-byte after-image, no rows. -/
def c5_example_data : Bytes := [0, 0, 0, 0, 0, 0, 0, 0, 2, 0, 1, 1]

/-- The event `c5_example_data` decodes to. -/
def c5_example_event : RowsEvent :=
  { table_id := 0, flags := 0, extra_data := [], num_columns := 1,
    columns_before_image := none, columns_after_image := some [true],
    rows_data := [] }

/-- C5 witness: the claim's conclusions at the concrete WRITE example. -/
theorem c5_rows_event_images_witness :
    (c5_example_event.columns_before_image.isSome ↔
      (EventType.WRITE_ROWS_EVENT = .UPDATE_ROWS_EVENT ∨
        EventType.WRITE_ROWS_EVENT = .DELETE_ROWS_EVENT)) ∧
    (c5_example_event.columns_after_image.isSome ↔
      (EventType.WRITE_ROWS_EVENT = .UPDATE_ROWS_EVENT ∨
        EventType.WRITE_ROWS_EVENT = .WRITE_ROWS_EVENT)) ∧
    (∀ img, c5_example_event.columns_before_image = some img →
      img.length = c5_example_event.num_columns ∧
      ∃ raw, raw.length = (c5_example_event.num_columns + 7) / 8 ∧
        img = (bytesToBits raw).take c5_example_event.num_columns) ∧
    (∀ img, c5_example_event.columns_after_image = some img →
      img.length = c5_example_event.num_columns ∧
      ∃ raw, raw.length = (c5_example_event.num_columns + 7) / 8 ∧
        img = (bytesToBits raw).take c5_example_event.num_columns) :=
  c5_rows_event_images .WRITE_ROWS_EVENT (FormatDescriptionEvent.new 4)
    c5_example_data c5_example_event (Or.inl rfl) (by decide)

theorem WfBytes.of_append_right {a b : Bytes} (h : WfBytes (a ++ b)) :
    WfBytes b :=
  fun x hx => h x (List.mem_append_right _ hx)

theorem readUIntLE_writeBack {w : Nat} {input rest : Bytes} {v : Nat}
    (h : readUIntLE w input = some (v, rest)) (hwf : WfBytes input) :
    writeUIntLE w v ++ rest = input ∧ v < 256 ^ w := by
  obtain ⟨buf, rfl, hlen, rfl⟩ := readUIntLE_eq_some h
  have hwb : ∀ x ∈ buf, x < 256 :=
    fun x hx => hwf x (List.mem_append_left _ hx)
  refine ⟨?_, ?_⟩
  · rw [← hlen, writeUIntLE_leVal hwb]
  · rw [← hlen]
    exact leVal_lt hwb

/-- C7: decoding a wire-valid non-null `UserVarEvent` body and
re-encoding it reproduces the body exactly when the optional trailing
flags byte was present, and reproduces it with exactly one appended
flags byte (0) when it was absent; the round-trip never diverges in any
other way. -/
theorem c7_uservar_roundtrip (data : Bytes) (ev : UserVarEvent)
    (hwf : WfBytes data)
    (h : UserVarEvent.read? data = some ev)
    (hnn : ev.is_null = false) :
    UserVarEvent.write ev = .ok data ∨
      UserVarEvent.write ev = .ok (data ++ [0]) := by
  unfold UserVarEvent.read? at h
  simp only [Option.bind_eq_some] at h
  obtain ⟨⟨name_len, d1⟩, h1, h⟩ := h
  obtain ⟨⟨name, d2⟩, h2, h⟩ := h
  obtain ⟨⟨nb, d3⟩, h3, h⟩ := h
  dsimp only at h
  by_cases hnb : nb ≠ 0
  · rw [if_pos hnb] at h
    simp only [Option.some.injEq] at h
    rw [← h] at hnn
    simp at hnn
  · rw [if_neg hnb] at h
    push_neg at hnb
    subst hnb
    simp only [Option.bind_eq_some] at h
    obtain ⟨⟨vt, d4⟩, h4, h⟩ := h
    obtain ⟨⟨cs, d5⟩, h5, h⟩ := h
    obtain ⟨⟨vl, d6⟩, h6, h⟩ := h
    obtain ⟨⟨value, d7⟩, h7, h⟩ := h
    obtain ⟨⟨fl, d8⟩, h8, h⟩ := h
    dsimp only at h1 h2 h3 h4 h5 h6 h7 h8 h
    by_cases hrem : 0 < d8.length
    · rw [if_pos hrem] at h
      exact absurd h (by simp)
    · rw [if_neg hrem] at h
      simp only [Option.some.injEq] at h
      subst h
      have hd8 : d8 = [] := List.length_eq_zero.mp (by omega)
      subst hd8
      -- reconstruct the input byte by byte
      obtain ⟨hda, hnlt⟩ := readUIntLE_writeBack h1 hwf
      have hwf1 : WfBytes d1 := by
        rw [← hda] at hwf; exact hwf.of_append_right
      obtain ⟨hd1, hnamelen⟩ := readN?_eq_some h2
      have hwf2 : WfBytes d2 := by
        rw [hd1] at hwf1; exact hwf1.of_append_right
      obtain ⟨hd2, -⟩ := readUIntLE_writeBack h3 hwf2
      have hwf3 : WfBytes d3 := by
        rw [← hd2] at hwf2; exact hwf2.of_append_right
      obtain ⟨hd3, hvt⟩ := readUIntLE_writeBack h4 hwf3
      have hwf4 : WfBytes d4 := by
        rw [← hd3] at hwf3; exact hwf3.of_append_right
      obtain ⟨hd4, hcs⟩ := readUIntLE_writeBack h5 hwf4
      have hwf5 : WfBytes d5 := by
        rw [← hd4] at hwf4; exact hwf4.of_append_right
      obtain ⟨hd5, hvl⟩ := readUIntLE_writeBack h6 hwf5
      have hwf6 : WfBytes d6 := by
        rw [← hd5] at hwf5; exact hwf5.of_append_right
      obtain ⟨hd6, hvaluelen⟩ := readN?_eq_some h7
      have hwf7 : WfBytes d7 := by
        rw [hd6] at hwf6; exact hwf6.of_append_right
      -- the write succeeds and reproduces the prefix
      have hcond : ¬(2 ^ 32 ≤ name.length ∨
          (¬(false : Bool) = true ∧ 2 ^ 32 ≤ value.length)) := by
        push_neg
        constructor
        · rw [hnamelen]; omega
        · intro _; rw [hvaluelen]; omega
      unfold UserVarEvent.write
      rw [if_neg (by simpa using hcond)]
      have hwname : writeUIntLE 4 (name.length % 2 ^ 32) =
          writeUIntLE 4 name_len := by
        rw [hnamelen, Nat.mod_eq_of_lt (by simpa using hnlt)]
      have hwvalue : writeUIntLE 4 (value.length % 2 ^ 32) =
          writeUIntLE 4 vl := by
        rw [hvaluelen, Nat.mod_eq_of_lt (by simpa using hvl)]
      by_cases hfl : 0 < d7.length
      · -- flags byte present in the source: exact reproduction
        left
        rw [if_pos hfl] at h8
        obtain ⟨hd7, -⟩ := readUIntLE_writeBack h8 hwf7
        simp only [List.append_nil] at hd7
        simp only [Bool.false_eq_true, if_false, ite_false]
        rw [← hda, hd1, ← hd2, ← hd3, ← hd4, ← hd5, hd6, ← hd7, hwname,
          hwvalue]
        simp [List.append_assoc, writeUIntLE, leVal]
      · -- flags byte absent: the encoder appends one
        right
        rw [if_neg hfl] at h8
        simp only [Option.some.injEq, Prod.mk.injEq] at h8
        obtain ⟨rfl, rfl⟩ := h8
        simp only [Bool.false_eq_true, if_false, ite_false]
        rw [← hda, hd1, ← hd2, ← hd3, ← hd4, ← hd5, hd6, hwname, hwvalue]
        simp [List.append_assoc, writeUIntLE, leVal]

/-- C7 witness data: a non-null `UserVarEvent` body in the legacy form
(no trailing flags byte): name `"a"`, value type 8 (INT_RESULT), charset
63, value `"1"`. -/
def c7_example_data : Bytes :=
  [1, 0, 0, 0, 97, 0, 8, 63, 0, 0, 0, 1, 0, 0, 0, 49]

/-- The event `c7_example_data` decodes to. -/
def c7_example_event : UserVarEvent :=
  { name := [97], is_null := false, value_type := 8, charset := 63,
    value := [49], flags := 0 }

/-- C7 witness: the round-trip claim at the concrete legacy-form
example (here the encoder appends the flags byte). -/
theorem c7_uservar_roundtrip_witness :
    UserVarEvent.write c7_example_event = .ok c7_example_data ∨
      UserVarEvent.write c7_example_event = .ok (c7_example_data ++ [0]) :=
  c7_uservar_roundtrip c7_example_data c7_example_event
    (by unfold WfBytes; decide) (by decide) rfl

/-! ## C10: table-id width on the pre-GA (4-byte table id) shape -/

/-- Spec-side canonical pre-GA wire body of a table map event (claim
C10): the layout of `TableMapEvent::read` under an FDE declaring a
6-byte post-header — a *4-byte* table id — with minimal lenenc fields
and NUL name terminators. -/
def tableMapWirePreGA (tid fl : Nat) (db tn ct meta bm opt : Bytes) :
    Bytes :=
  writeUIntLE 4 tid ++ (writeUIntLE 2 fl ++ ([db.length] ++ (db ++ ([0] ++
    ([tn.length] ++ (tn ++ ([0] ++ (write_lenenc_int ct.length ++ (ct ++
      (write_lenenc_int meta.length ++ (meta ++ (bm ++ opt))))))))))))

/-- Spec-side canonical pre-GA wire body of a v2 rows event (claim C10),
with the extra-data block present (the shape read back when the FDE's
`WRITE_ROWS_EVENT` entry matches the event's post-header length). -/
def rowsWirePreGAWithExtra (tid fl : Nat) (extra : Bytes) (n : Nat)
    (bm1 bm2 rows : Bytes) : Bytes :=
  writeUIntLE 4 tid ++ (writeUIntLE 2 fl ++
    (writeUIntLE 2 (extra.length + 2) ++ (extra ++
      (write_lenenc_int n ++ (bm1 ++ (bm2 ++ rows))))))

/-- Spec-side canonical pre-GA wire body of a v2 rows event (claim C10)
without the extra-data block (the shape read when the FDE's
`WRITE_ROWS_EVENT` entry does not match). -/
def rowsWirePreGANoExtra (tid fl : Nat) (n : Nat)
    (bm1 bm2 rows : Bytes) : Bytes :=
  writeUIntLE 4 tid ++ (writeUIntLE 2 fl ++
    (write_lenenc_int n ++ (bm1 ++ (bm2 ++ rows))))

/-- C10 counterexample FDE: post-header-length table declaring 6 for
`UPDATE_ROWS_EVENT` (index 0x1f - 1 = 30) but 10 for `WRITE_ROWS_EVENT`
(index 29). -/
def c10_fde : FormatDescriptionEvent :=
  { FormatDescriptionEvent.new 4 with
    event_type_header_lengths := List.replicate 29 0 ++ [10, 6] }

/-- C10 counterexample input: an UPDATE rows body under `c10_fde` —
4-byte table id 1, flags 0, one column, two 1-byte images, no rows
(9 bytes). -/
def c10_update_input : Bytes := [1, 0, 0, 0, 0, 0, 1, 1, 1]

/-- C10 counterexample: the claim says decode-then-encode of every
pre-GA-shape event produces a body exactly *two* bytes longer.  This
UPDATE rows event decodes (consuming a 4-byte table id), and re-encoding
produces 13 bytes from the 9-byte original — *four* bytes longer,
because `RowsEvent::write` emits both the 6-byte table id and the 2-byte
extra-data length prefix that `read` (whose FDE `WRITE_ROWS_EVENT` entry
is 10, not 6) never consumed. -/
theorem c10_counterexample :
    (RowsEvent.read? .UPDATE_ROWS_EVENT c10_fde c10_update_input).map
        (fun ev => (RowsEvent.write ev).map List.length) =
      some (.ok 13) ∧
    c10_update_input.length = 9 := by
  constructor
  · rfl
  · rfl

theorem readN?_self (xs rest : Bytes) :
    readN? xs.length (xs ++ rest) = some (xs, rest) :=
  readN?_append rfl

theorem readUIntLE_one_cons (x : Nat) (rest : Bytes) :
    readUIntLE 1 (x :: rest) = some (x, rest) := by
  have h : readN? 1 ([x] ++ rest) = some ([x], rest) :=
    readN?_append (show ([x] : Bytes).length = 1 from rfl)
  simp only [List.singleton_append] at h
  simp [readUIntLE, h, leVal]

theorem length_bitsToBytes (l : List Bool) :
    (bitsToBytes l).length = (l.length + 7) / 8 := by
  induction l using bitsToBytes.induct with
  | case1 => rfl
  | case2 b0 b1 b2 b3 b4 b5 b6 b7 rest ih =>
    simp only [bitsToBytes, List.length_cons, ih]
    omega
  | case3 l h1 h2 =>
    rcases l with _ | ⟨a0, _ | ⟨a1, _ | ⟨a2, _ | ⟨a3, _ | ⟨a4, _ | ⟨a5, _ |
      ⟨a6, _ | ⟨a7, rest⟩⟩⟩⟩⟩⟩⟩⟩
    · exact absurd rfl h1
    · rw [bitsToBytes.eq_def]; dsimp only; simp
    · rw [bitsToBytes.eq_def]; dsimp only; simp
    · rw [bitsToBytes.eq_def]; dsimp only; simp
    · rw [bitsToBytes.eq_def]; dsimp only; simp
    · rw [bitsToBytes.eq_def]; dsimp only; simp
    · rw [bitsToBytes.eq_def]; dsimp only; simp
    · rw [bitsToBytes.eq_def]; dsimp only; simp
    · exact absurd rfl (h2 a0 a1 a2 a3 a4 a5 a6 a7 rest)

/-- C10 (amended): `TableMapEvent::write` and `RowsEvent::write` always
emit a 6-byte table id even when the FDE's 6-byte post-header made the
read consume only 4 bytes, so byte-exact round-trip fails for the pre-GA
shape.  For every canonically encoded pre-GA-shape event:

* a table map body re-encodes exactly 2 bytes longer;
* a rows body whose FDE also declares post-header 6 for
  `WRITE_ROWS_EVENT` (so the 2-byte extra-data prefix is read back)
  re-encodes exactly 2 bytes longer;
* a rows body whose FDE `WRITE_ROWS_EVENT` entry differs (no extra-data
  prefix on read) re-encodes exactly 4 bytes longer, since the writer
  also always emits the extra-data length prefix. -/
theorem c10_table_id_width_roundtrip :
    (∀ (fde : FormatDescriptionEvent) (tid fl : Nat)
        (db tn ct meta bm opt : Bytes),
      fde.get_event_type_header_length .TABLE_MAP_EVENT = 6 →
      tid < 2 ^ 32 → fl < 2 ^ 16 → db.length ≤ 255 → tn.length ≤ 255 →
      ct.length < 2 ^ 64 → meta.length < 2 ^ 64 →
      bm.length = (ct.length + 7) / 8 →
      TableMapEvent.read? fde (tableMapWirePreGA tid fl db tn ct meta bm opt) =
        some ⟨tid, fl, db, tn, ct, meta, bm, opt⟩ ∧
      ∃ out,
        TableMapEvent.write ⟨tid, fl, db, tn, ct, meta, bm, opt⟩ = .ok out ∧
        out.length =
          (tableMapWirePreGA tid fl db tn ct meta bm opt).length + 2) ∧
    (∀ (fde : FormatDescriptionEvent) (tid fl : Nat) (extra : Bytes)
        (n : Nat) (bm1 bm2 rows : Bytes),
      fde.get_event_type_header_length .UPDATE_ROWS_EVENT = 6 →
      fde.get_event_type_header_length .WRITE_ROWS_EVENT = 6 →
      tid < 2 ^ 32 → fl < 2 ^ 16 → extra.length ≤ 65533 → n < 2 ^ 64 →
      bm1.length = (n + 7) / 8 → bm2.length = (n + 7) / 8 →
      RowsEvent.read? .UPDATE_ROWS_EVENT fde
          (rowsWirePreGAWithExtra tid fl extra n bm1 bm2 rows) =
        some ⟨tid, fl, extra, n, some ((bytesToBits bm1).take n),
          some ((bytesToBits bm2).take n), rows⟩ ∧
      ∃ out,
        RowsEvent.write ⟨tid, fl, extra, n, some ((bytesToBits bm1).take n),
          some ((bytesToBits bm2).take n), rows⟩ = .ok out ∧
        out.length =
          (rowsWirePreGAWithExtra tid fl extra n bm1 bm2 rows).length + 2) ∧
    (∀ (fde : FormatDescriptionEvent) (tid fl : Nat) (n : Nat)
        (bm1 bm2 rows : Bytes),
      fde.get_event_type_header_length .UPDATE_ROWS_EVENT = 6 →
      fde.get_event_type_header_length .WRITE_ROWS_EVENT ≠ 6 →
      tid < 2 ^ 32 → fl < 2 ^ 16 → n < 2 ^ 64 →
      bm1.length = (n + 7) / 8 → bm2.length = (n + 7) / 8 →
      RowsEvent.read? .UPDATE_ROWS_EVENT fde
          (rowsWirePreGANoExtra tid fl n bm1 bm2 rows) =
        some ⟨tid, fl, [], n, some ((bytesToBits bm1).take n),
          some ((bytesToBits bm2).take n), rows⟩ ∧
      ∃ out,
        RowsEvent.write ⟨tid, fl, [], n, some ((bytesToBits bm1).take n),
          some ((bytesToBits bm2).take n), rows⟩ = .ok out ∧
        out.length =
          (rowsWirePreGANoExtra tid fl n bm1 bm2 rows).length + 4) := by
  have hp4 : (256 : Nat) ^ 4 = 2 ^ 32 := by norm_num
  have hp2 : (256 : Nat) ^ 2 = 2 ^ 16 := by norm_num
  have hp8 : (256 : Nat) ^ 8 = 2 ^ 64 := by norm_num
  refine ⟨?_, ?_, ?_⟩
  · intro fde tid fl db tn ct meta bm opt h6 htid hfl hdb htn hct hmeta hbm
    constructor
    · unfold TableMapEvent.read? tableMapWirePreGA
      rw [if_pos h6]
      simp only [List.singleton_append,
        readUIntLE_write (show tid < 256 ^ 4 from by omega),
        readUIntLE_write (show fl < 256 ^ 2 from by omega),
        readUIntLE_one_cons, readN?_self,
        read_lenenc_int_write (show ct.length < 256 ^ 8 from by omega),
        read_lenenc_int_write (show meta.length < 256 ^ 8 from by omega),
        readN?_append hbm, Option.some_bind]
    · unfold TableMapEvent.write
      rw [if_neg (by dsimp only; omega)]
      refine ⟨_, rfl, ?_⟩
      simp only [tableMapWirePreGA, TableMapEvent.get_columns_count,
        write_lenenc_str, List.length_append, List.length_cons,
        List.length_singleton, length_writeUIntLE]
      omega
  · intro fde tid fl extra n bm1 bm2 rows hupd hwr htid hfl hex hn hbm1 hbm2
    have hb1 : (bitsToBytes ((bytesToBits bm1).take n)).length = (n + 7) / 8 := by
      rw [length_bitsToBytes, length_take_bits hbm1]
    have hb2 : (bitsToBytes ((bytesToBits bm2).take n)).length = (n + 7) / 8 := by
      rw [length_bitsToBytes, length_take_bits hbm2]
    constructor
    · unfold RowsEvent.read? rowsWirePreGAWithExtra
      rw [hupd, hwr]
      simp only [if_pos rfl,
        show ((EventType.UPDATE_ROWS_EVENT == .DELETE_ROWS_EVENT ||
          EventType.UPDATE_ROWS_EVENT == .DELETE_ROWS_EVENT_V1) : Bool) =
          false from by decide,
        show ((EventType.UPDATE_ROWS_EVENT == .UPDATE_ROWS_EVENT ||
          EventType.UPDATE_ROWS_EVENT == .UPDATE_ROWS_EVENT_V1 ||
          EventType.UPDATE_ROWS_EVENT == .PARTIAL_UPDATE_ROWS_EVENT) : Bool) =
          true from by decide,
        if_true, if_false, Bool.false_eq_true,
        readUIntLE_write (show tid < 256 ^ 4 from by omega),
        readUIntLE_write (show fl < 256 ^ 2 from by omega),
        readUIntLE_write (show extra.length + 2 < 256 ^ 2 from by omega),
        Nat.add_sub_cancel, readN?_self,
        read_lenenc_int_write (show n < 256 ^ 8 from by omega),
        readN?_append hbm1, readN?_append hbm2,
        Option.some_bind, Option.map_some', Option.map_some]
    · unfold RowsEvent.write
      dsimp only
      simp only [Option.isSome_some, Option.map_some', Option.map_some,
        Option.getD_some, if_true]
      rw [if_neg (show ¬(65535 - 2 < extra.length) from by omega)]
      rw [if_neg (show ¬((n + 7) / 8 * (1 + 1) <
        (bitsToBytes ((bytesToBits bm1).take n)).length +
          (bitsToBytes ((bytesToBits bm2).take n)).length) from by omega)]
      rw [if_neg (show ¬((bitsToBytes ((bytesToBits bm1).take n)).length +
          (bitsToBytes ((bytesToBits bm2).take n)).length <
        (n + 7) / 8 * (1 + 1)) from by omega)]
      refine ⟨_, rfl, ?_⟩
      simp only [rowsWirePreGAWithExtra, List.length_append,
        length_writeUIntLE]
      omega
  · intro fde tid fl n bm1 bm2 rows hupd hwr htid hfl hn hbm1 hbm2
    have hb1 : (bitsToBytes ((bytesToBits bm1).take n)).length = (n + 7) / 8 := by
      rw [length_bitsToBytes, length_take_bits hbm1]
    have hb2 : (bitsToBytes ((bytesToBits bm2).take n)).length = (n + 7) / 8 := by
      rw [length_bitsToBytes, length_take_bits hbm2]
    constructor
    · unfold RowsEvent.read? rowsWirePreGANoExtra
      rw [hupd]
      dsimp only
      simp only [show (6 = fde.get_event_type_header_length
          EventType.WRITE_ROWS_EVENT) = False from
        eq_false fun h => hwr h.symm, if_false]
      simp only [if_pos rfl,
        show ((EventType.UPDATE_ROWS_EVENT == .DELETE_ROWS_EVENT ||
          EventType.UPDATE_ROWS_EVENT == .DELETE_ROWS_EVENT_V1) : Bool) =
          false from by decide,
        show ((EventType.UPDATE_ROWS_EVENT == .UPDATE_ROWS_EVENT ||
          EventType.UPDATE_ROWS_EVENT == .UPDATE_ROWS_EVENT_V1 ||
          EventType.UPDATE_ROWS_EVENT == .PARTIAL_UPDATE_ROWS_EVENT) : Bool) =
          true from by decide,
        if_true, if_false, Bool.false_eq_true,
        readUIntLE_write (show tid < 256 ^ 4 from by omega),
        readUIntLE_write (show fl < 256 ^ 2 from by omega),
        read_lenenc_int_write (show n < 256 ^ 8 from by omega),
        readN?_append hbm1, readN?_append hbm2,
        Option.some_bind, Option.map_some', Option.map_some]
    · unfold RowsEvent.write
      dsimp only
      simp only [Option.isSome_some, Option.map_some', Option.map_some,
        Option.getD_some, if_true]
      rw [if_neg (show ¬(65535 - 2 < ([] : Bytes).length) from by simp)]
      rw [if_neg (show ¬((n + 7) / 8 * (1 + 1) <
        (bitsToBytes ((bytesToBits bm1).take n)).length +
          (bitsToBytes ((bytesToBits bm2).take n)).length) from by omega)]
      rw [if_neg (show ¬((bitsToBytes ((bytesToBits bm1).take n)).length +
          (bitsToBytes ((bytesToBits bm2).take n)).length <
        (n + 7) / 8 * (1 + 1)) from by omega)]
      refine ⟨_, rfl, ?_⟩
      simp only [rowsWirePreGANoExtra, List.length_append,
        length_writeUIntLE, List.length_nil]
      omega

/-- Witness FDE for the table-map part of C10: post-header length 6
declared for `TABLE_MAP_EVENT` (index 0x13 - 1 = 18). -/
def c10_tm_fde : FormatDescriptionEvent :=
  { FormatDescriptionEvent.new 4 with
    event_type_header_lengths := List.replicate 18 0 ++ [6] }

/-- Witness FDE for the extra-data part of C10: post-header length 6
declared for both `WRITE_ROWS_EVENT` (index 29) and `UPDATE_ROWS_EVENT`
(index 30). -/
def c10_rows_fde : FormatDescriptionEvent :=
  { FormatDescriptionEvent.new 4 with
    event_type_header_lengths := List.replicate 29 0 ++ [6, 6] }

/-- C10 witness: the three amended statements at concrete pre-GA-shape
events (an empty table map; an UPDATE rows event with and without the
extra-data prefix). -/
theorem c10_table_id_width_roundtrip_witness :
    (TableMapEvent.read? c10_tm_fde (tableMapWirePreGA 1 0 [] [] [] [] [] []) =
        some ⟨1, 0, [], [], [], [], [], []⟩ ∧
      ∃ out, TableMapEvent.write ⟨1, 0, [], [], [], [], [], []⟩ = .ok out ∧
        out.length = (tableMapWirePreGA 1 0 [] [] [] [] [] []).length + 2) ∧
    (RowsEvent.read? .UPDATE_ROWS_EVENT c10_rows_fde
        (rowsWirePreGAWithExtra 1 0 [] 1 [1] [1] []) =
        some ⟨1, 0, [], 1, some ((bytesToBits [1]).take 1),
          some ((bytesToBits [1]).take 1), []⟩ ∧
      ∃ out, RowsEvent.write ⟨1, 0, [], 1, some ((bytesToBits [1]).take 1),
          some ((bytesToBits [1]).take 1), []⟩ = .ok out ∧
        out.length = (rowsWirePreGAWithExtra 1 0 [] 1 [1] [1] []).length + 2) ∧
    (RowsEvent.read? .UPDATE_ROWS_EVENT c10_fde
        (rowsWirePreGANoExtra 1 0 1 [1] [1] []) =
        some ⟨1, 0, [], 1, some ((bytesToBits [1]).take 1),
          some ((bytesToBits [1]).take 1), []⟩ ∧
      ∃ out, RowsEvent.write ⟨1, 0, [], 1, some ((bytesToBits [1]).take 1),
          some ((bytesToBits [1]).take 1), []⟩ = .ok out ∧
        out.length = (rowsWirePreGANoExtra 1 0 1 [1] [1] []).length + 4) :=
  ⟨c10_table_id_width_roundtrip.1 c10_tm_fde 1 0 [] [] [] [] [] []
      (by decide) (by decide) (by decide) (by decide) (by decide) (by decide)
      (by decide) (by decide),
    c10_table_id_width_roundtrip.2.1 c10_rows_fde 1 0 [] 1 [1] [1] []
      (by decide) (by decide) (by decide) (by decide) (by decide) (by decide)
      (by decide) (by decide),
    c10_table_id_width_roundtrip.2.2 c10_fde 1 0 1 [1] [1] []
      (by decide) (by decide) (by decide) (by decide) (by decide) (by decide)
      (by decide)⟩

end MysqlBinlog
